import Mathlib

/-!
Verification of the Gemini-CLI-UI process orchestrator and project-index
helpers against their natural-language specification.

The definitions below are a shallow embedding of the JavaScript source:

* `normalizeProvider`, `timeoutMsFor`, `providerLabelFor`, `sessionTagFor`
  embed the provider resolution of `server/cli-config.js` and the
  provider-keyed constants of the orchestrator module.
* `encodeProjectPathToName` / `decodeProjectNameToPath` embed the
  base64url project-name codec of the project-index module (filesystem
  probing is passed in as a `String → Bool` oracle).
* `buildGeminiArgs` embeds the gemini branch of the argument builder in
  `spawnGemini`.
* `abortGeminiSession`, `forceKillCallback` embed the abort path and its
  delayed force-kill closure over the module-level process registry.
* `TurnConfig` / `TurnState` / `stepTurn` / `runTurn` embed one turn of
  `spawnGemini` as a state machine whose inputs are the asynchronous
  events delivered by the runtime (stdout data, stderr data, the one-shot
  no-output timer, process close, process spawn error).  `JSON.parse` is
  passed in as an oracle `String → Option Json`.  The trace of a run
  records the externally visible effects (websocket sends, buffer calls,
  session-store calls, signals, file removals, promise settlement).
-/

namespace GeminiCliUi

/-! ## Basic string helpers (JS semantics) -/

/-- Scan for `needle` occurring as a contiguous run inside `hay`. -/
def scanContains (needle : List Char) : List Char → Bool
  | [] => needle.isEmpty
  | c :: rest => needle.isPrefixOf (c :: rest) || scanContains needle rest

/-- JS `a.includes(b)` on strings. -/
def strContains (hay needle : String) : Bool :=
  scanContains needle.data hay.data

/-- JS `a || b` for an optional string `a` (undefined and `''` are falsy). -/
def jsOrStr (a : Option String) (b : String) : String :=
  match a with
  | some s => if s = "" then b else s
  | none => b

/-- JS truthiness of an optional string. -/
def optStrTruthy : Option String → Bool
  | some s => s ≠ ""
  | none => false

/-- JS `s.toLowerCase()` (ASCII, matching the provider tags at issue). -/
def jsToLower (s : String) : String :=
  String.mk (s.data.map Char.toLower)

/-- JS `s.trim()`. -/
def jsTrim (s : String) : String :=
  String.mk (((s.data.dropWhile Char.isWhitespace).reverse.dropWhile Char.isWhitespace).reverse)

/-- Split a character list at every occurrence of `sep` (JS
`s.split(sep)` for a one-character separator). -/
def splitOnCharList (sep : Char) : List Char → List (List Char)
  | [] => [[]]
  | c :: rest =>
    match splitOnCharList sep rest with
    | [] => [[c]]
    | h :: t => if c = sep then [] :: h :: t else (c :: h) :: t

/-- JS `s.split('\n')`. -/
def jsSplitNl (s : String) : List String :=
  (splitOnCharList '\x0a' s.data).map String.mk

/-- JS `arr.join('\n')`. -/
def nlJoin : List String → String
  | [] => ""
  | [s] => s
  | s :: rest => s ++ "\x0a" ++ nlJoin rest

/-- JS `s.slice(0, -n)` for `n ≤ s.length`. -/
def strDropRightN (s : String) (n : Nat) : String :=
  String.mk (s.data.take (s.data.length - n))

/-! ## cli-config.js -/

/-- `normalizeProvider` from `server/cli-config.js` (lines 172-179):
falsy override returns the module-level default provider, otherwise the
lower-cased tag is mapped to codex/claude/webllm and anything else to
gemini. -/
def normalizeProvider (defaultProvider : String) (providerOverride : Option String) : String :=
  match providerOverride with
  | none => defaultProvider
  | some s =>
    if s = "" then defaultProvider
    else
      let p := jsToLower s
      if p = "codex" then "codex"
      else if p = "claude" then "claude"
      else if p = "webllm" then "webllm"
      else "gemini"

/-- Provider label computed in `spawnGemini` (part_003 line 782). -/
def providerLabelFor (cliProvider : String) : String :=
  if cliProvider = "codex" then "Codex"
  else if cliProvider = "claude" then "Claude"
  else if cliProvider = "ollama" then "Ollama"
  else if cliProvider = "bmad" then "BMAD"
  else "Gemini"

/-- No-output timeout duration from `spawnGemini` (part_003 line 1079). -/
def timeoutMsFor (cliProvider : String) : Nat :=
  if cliProvider = "codex" then 120000
  else if cliProvider = "ollama" then 120000
  else if cliProvider = "bmad" then 120000
  else 30000

/-- Synthetic session-id tag from `spawnGemini` (part_003 line 1224). -/
def sessionTagFor (cliProvider : String) : String :=
  if cliProvider = "codex" then "codex"
  else if cliProvider = "claude" then "claude"
  else if cliProvider = "ollama" then "ollama"
  else if cliProvider = "bmad" then "bmad"
  else "gemini"

/-! ## base64 / base64url codec (Node `Buffer` semantics)

Node's decoder is lenient: characters outside the alphabet are ignored,
the 6-bit groups are concatenated and any trailing group of fewer than 8
bits is discarded.  Encoding is unpadded base64url. -/

def b64urlAlphabet : List Char :=
  "ABCDEFGHIJKLMNOPQRSTUVWXYZabcdefghijklmnopqrstuvwxyz0123456789-_".data

def b64ClassicAlphabet : List Char :=
  "ABCDEFGHIJKLMNOPQRSTUVWXYZabcdefghijklmnopqrstuvwxyz0123456789+/".data

def sextetToUrlChar (n : Nat) : Char := b64urlAlphabet.getD n 'A'

def urlCharToSextet (c : Char) : Option Nat :=
  let i := b64urlAlphabet.indexOf c
  if i < 64 then some i else none

def classicCharToSextet (c : Char) : Option Nat :=
  let i := b64ClassicAlphabet.indexOf c
  if i < 64 then some i else none

/-- Bytes to 6-bit groups (unpadded). -/
def b64EncodeSextets : List Nat → List Nat
  | a :: b :: c :: rest =>
    (a / 4) :: (a % 4 * 16 + b / 16) :: (b % 16 * 4 + c / 64) :: (c % 64) ::
      b64EncodeSextets rest
  | [a, b] => [a / 4, a % 4 * 16 + b / 16]  ++ [b % 16 * 4]
  | [a] => [a / 4, a % 4 * 16]
  | [] => []

/-- 6-bit groups back to bytes, discarding a trailing partial byte. -/
def b64SextetsToBytes : List Nat → List Nat
  | s1 :: s2 :: s3 :: s4 :: rest =>
    (s1 * 4 + s2 / 16) :: (s2 % 16 * 16 + s3 / 4) :: (s3 % 4 * 64 + s4) ::
      b64SextetsToBytes rest
  | [s1, s2, s3] => [s1 * 4 + s2 / 16, s2 % 16 * 16 + s3 / 4]
  | [s1, s2] => [s1 * 4 + s2 / 16]
  | _ => []

/-- ASCII-faithful bytes of a string (the paths at issue are printable ASCII). -/
def strToBytes (s : String) : List Nat := s.data.map Char.toNat

def bytesToStr (bs : List Nat) : String :=
  String.mk (bs.map (fun n => Char.ofNat (n % 256)))

/-- `Buffer.from(absolutePath).toString('base64url')` (part_003 lines 58-60). -/
def encodeProjectPathToName (absolutePath : String) : String :=
  String.mk ((b64EncodeSextets (strToBytes absolutePath)).map sextetToUrlChar)

def b64urlDecodeStr (s : String) : String :=
  bytesToStr (b64SextetsToBytes (s.data.filterMap urlCharToSextet))

def b64ClassicDecodeStr (s : String) : String :=
  bytesToStr (b64SextetsToBytes (s.data.filterMap classicCharToSextet))

/-- `projectName.replace(/[_-]+$/, '')`. -/
def stripTrailingUnderscoreDash (s : String) : String :=
  String.mk ((s.data.reverse.dropWhile (fun c => c = '_' || c = '-')).reverse)

/-- `decoded.replace(/[^\x20-\x7E]/g, '')`. -/
def filterPrintable (s : String) : String :=
  String.mk (s.data.filter (fun c => decide (32 ≤ c.toNat ∧ c.toNat ≤ 126)))

/-- `decodeProjectNameToPath` from the project-index module (part_003 lines
11-56).  `fs` is the `fsSync.existsSync` oracle.  Note that in Node
`Buffer.from(name, 'base64url')` never throws, so `tryDecode` only yields a
falsy result when the decoded string is empty; the legacy fallback is
reached exactly in that case. -/
def decodeProjectNameToPath (fs : String → Bool) (projectName : String) : Option String :=
  if projectName = "" then none
  else
    let candidate := stripTrailingUnderscoreDash projectName
    let d1 := b64urlDecodeStr candidate
    let decoded :=
      if d1 ≠ "" then d1
      else
        let legacy := String.mk (projectName.data.map
          (fun c => if c = '_' then '+' else if c = '-' then '/' else c))
        b64ClassicDecodeStr legacy
    if decoded = "" then none
    else
      let cleaned := jsTrim (filterPrintable decoded)
      if cleaned.data.head? = some '/' then
        if fs cleaned then some cleaned
        else if strDropRightN cleaned 1 ≠ "" ∧ fs (strDropRightN cleaned 1) then
          some (strDropRightN cleaned 1)
        else if strDropRightN cleaned 2 ≠ "" ∧ fs (strDropRightN cleaned 2) then
          some (strDropRightN cleaned 2)
        else some cleaned
      else some cleaned

/-! ## Gemini argument builder (part_003 lines 919-1044) -/

structure ToolsSettings where
  allowedTools : List String
  disallowedTools : List String
  skipPermissions : Bool

/-- The always-on critical tool names (part_003 lines 1001-1017). -/
def criticalTools : List String :=
  ["run_shell_command", "Bash", "Bash(git log:*)", "Bash(git diff:*)",
   "Bash(git status:*)", "write_file", "read_file", "search_file_content",
   "save_memory", "replace", "Write", "Read", "Edit", "Glob", "Grep"]

/-- The `criticalTools.forEach` loop: append each critical tool not already
in the list (part_003 lines 1022-1026). -/
def addCriticalTools (base : List String) : List String :=
  criticalTools.foldl (fun acc tool => if acc.contains tool then acc else acc ++ [tool]) base

/-- The gemini branch of the argument builder in `spawnGemini` plus the
final positional prompt (part_003 lines 919-1044).  `debug` is
`options.debug`, `mcpConfigPath` is the result of the MCP-config probe,
`model` is `options.model`. -/
def buildGeminiArgs (debug : Bool) (mcpConfigPath : Option String)
    (model : Option String) (settings : ToolsSettings) (promptToUse : String) :
    List String :=
  let args : List String := if debug then ["--debug"] else []
  let args := args ++ (match mcpConfigPath with
    | some p => ["--mcp-config", p]
    | none => [])
  let args := args ++ ["--model", jsOrStr model "gemini-2.5-flash"]
  let args := args ++
    (if settings.skipPermissions then ["--yolo"]
     else
       let toolsToAllow := addCriticalTools settings.allowedTools
       if toolsToAllow ≠ [] then "--allowed-tools" :: toolsToAllow else [])
  args ++ (if promptToUse ≠ "" then [promptToUse] else [])

/-! ## Process registry (the module-level `activeGeminiProcesses` Map) -/

/-- The registry maps registry keys to native process references (modelled
as numeric ids), in insertion order as a JS `Map` does. -/
abbrev Registry := List (String × Nat)

/-- JS `Map.prototype.set`. -/
def mapSet (m : Registry) (k : String) (v : Nat) : Registry :=
  if m.any (fun kv => kv.1 == k) then
    m.map (fun kv => if kv.1 == k then (k, v) else kv)
  else m ++ [(k, v)]

/-- JS `Map.prototype.delete`. -/
def mapDelete (m : Registry) (k : String) : Registry :=
  m.filter (fun kv => kv.1 != k)

/-- JS `Map.prototype.has`. -/
def containsKey (m : Registry) (k : String) : Bool :=
  m.any (fun kv => kv.1 == k)

/-- The substring fallback used by `abortGeminiSession`:
`key.includes(sessionId) || sessionId.includes(key)` (part_003 line 1403). -/
def subKeyMatch (key sessionId : String) : Bool :=
  strContains key sessionId || strContains sessionId key

/-- Result of `abortGeminiSession`: the registry after the call, the boolean
return value, the matched key, the pid signalled with SIGTERM, and the
`(processKey, process)` pair captured by the scheduled 2-second force-kill
closure. -/
structure AbortResult where
  registry : Registry
  found : Bool
  matchedKey : Option String
  sigtermTo : Option Nat
  scheduledKill : Option (String × Nat)

/-- `abortGeminiSession` (part_003 lines 1392-1440): exact lookup, then
first substring match in iteration order; on a hit send SIGTERM, schedule
the force kill, delete the matched key and return true.  (In Node,
`ChildProcess.kill` does not throw for an already-exited child, so the
`catch` branch is not modelled.) -/
def abortGeminiSession (registry : Registry) (sessionId : String) : AbortResult :=
  let exact := registry.find? (fun kv => kv.1 == sessionId)
  let found := match exact with
    | some kv => some kv
    | none => registry.find? (fun kv => subKeyMatch kv.1 sessionId)
  match found with
  | some kv =>
    { registry := mapDelete registry kv.1
      found := true
      matchedKey := some kv.1
      sigtermTo := some kv.2
      scheduledKill := some (kv.1, kv.2) }
  | none =>
    { registry := registry, found := false, matchedKey := none
      sigtermTo := none, scheduledKill := none }

/-- Registry mutations other turns may perform between the abort call and
the grace-period timer firing. -/
inductive RegOp
  | setEntry (k : String) (pid : Nat)
  | delEntry (k : String)

def applyRegOps (m : Registry) (ops : List RegOp) : Registry :=
  ops.foldl
    (fun acc op =>
      match op with
      | .setEntry k v => mapSet acc k v
      | .delEntry k => mapDelete acc k)
    m

/-! ## Observable effects -/

/-- A JSON value, for the codex newline-delimited protocol. -/
inductive Json
  | null
  | bool (b : Bool)
  | num (n : Int)
  | str (s : String)
  | obj (fields : List (String × Json))

/-- JS property access `e[k]` on an object (first binding wins). -/
def Json.getField : Json → String → Option Json
  | .obj fields, k => (fields.find? (fun f => f.1 == k)).map (·.2)
  | _, _ => none

/-- JS truthiness of an optional JSON value. -/
def jsTruthy : Option Json → Bool
  | none => false
  | some .null => false
  | some (.bool b) => b
  | some (.num n) => n != 0
  | some (.str s) => s ≠ ""
  | some (.obj _) => true

/-- `e[k] === 'v'` for a string literal. -/
def jsonFieldIsStr (e : Json) (k v : String) : Bool :=
  match e.getField k with
  | some (.str s) => s = v
  | _ => false

/-- `x || ''` for a JSON field expected to carry a string. -/
def jsonStrOrEmpty : Option Json → String
  | some (.str s) => s
  | _ => ""

/-- `a || fallback` where `a` is a JSON field expected to carry a string. -/
def jsStrOr (o : Option Json) (fallback : String) : String :=
  match o with
  | some (.str s) => if s = "" then fallback else s
  | _ => fallback

/-- Websocket messages sent by the orchestrator (`ws.send` payloads). -/
inductive WsMsg
  | geminiError (error : String)
  | geminiResponse (content : String)
  | sessionCreated (sessionId : String)
  | geminiComplete (exitCode : Option Int) (isNewSession : Bool)

/-- Externally visible effects of one turn, in program order. -/
inductive Action
  | wsSend (m : WsMsg)
  | bufferProcessData (text : String)
  | bufferForceFlush
  | bufferDestroy
  | setExternalAct (sessionId : String) (externalId : Json)
  | killSigterm (pid : Nat)
  | killSigkill (pid : Nat)
  | fsUnlink (p : String)
  | fsRmRf (p : String)
  | resolveP
  | rejectP (msg : String)

/-- The delayed force-kill closure scheduled by `abortGeminiSession`
(part_003 lines 1418-1427): when the 2-second timer fires it sends SIGKILL
to the captured process only if the captured key is still registered. -/
def forceKillCallback (registryAtFire : Registry) (scheduled : String × Nat) : List Action :=
  if containsKey registryAtFire scheduled.1 then [Action.killSigkill scheduled.2] else []

/-! ## Session store (external collaborator, interface only) -/

structure SessionStore where
  sessions : List (String × String × String)
  messages : List (String × String × String)
  externalIds : List (String × Json)

def SessionStore.createSession (st : SessionStore) (id cwd provider : String) : SessionStore :=
  { st with sessions := st.sessions ++ [(id, cwd, provider)] }

def SessionStore.addMessage (st : SessionStore) (id role text : String) : SessionStore :=
  { st with messages := st.messages ++ [(id, role, text)] }

def SessionStore.setExternal (st : SessionStore) (id : String) (ext : Json) : SessionStore :=
  { st with externalIds := st.externalIds ++ [(id, ext)] }

/-! ## Output sanitizers (part_003 lines 759-773) -/

def csiParamChar (c : Char) : Bool := c.isDigit || c = ';' || c = '?'
def csiInterChar (c : Char) : Bool := decide (32 ≤ c.toNat ∧ c.toNat ≤ 47)
def csiFinalChar (c : Char) : Bool := decide (64 ≤ c.toNat ∧ c.toNat ≤ 126)

/-- `.replace(/\x1b\[[0-9;?]*[ -\/]*[@-~]/g, '')`, fuelled scan. -/
def stripCsiAux : Nat → List Char → List Char
  | 0, l => l
  | _, [] => []
  | fuel + 1, c :: rest =>
    if c = '\x1b' then
      match rest with
      | '[' :: rest2 =>
        let afterParams := rest2.dropWhile csiParamChar
        let afterInter := afterParams.dropWhile csiInterChar
        match afterInter with
        | f :: rest3 =>
          if csiFinalChar f then stripCsiAux fuel rest3
          else c :: stripCsiAux fuel rest
        | [] => c :: stripCsiAux fuel rest
      | _ => c :: stripCsiAux fuel rest
    else c :: stripCsiAux fuel rest

/-- Rightmost `ESC \` terminator for an OSC sequence with no BEL. -/
def oscTailAfterEscSlash : List Char → Option (List Char)
  | [] => none
  | c :: rest =>
    match oscTailAfterEscSlash rest with
    | some r => some r
    | none =>
      if c = '\x1b' then
        match rest with
        | '\\' :: r2 => some r2
        | _ => none
      else none

/-- Body match for `\x1b\][^\x07]*(?:\x07|\x1b\\)`. -/
def oscMatch (l : List Char) : Option (List Char) :=
  match l.findIdx? (fun c => c = '\x07') with
  | some i => some (l.drop (i + 1))
  | none => oscTailAfterEscSlash l

def stripOscAux : Nat → List Char → List Char
  | 0, l => l
  | _, [] => []
  | fuel + 1, c :: rest =>
    if c = '\x1b' then
      match rest with
      | ']' :: rest2 =>
        match oscMatch rest2 with
        | some rest3 => stripOscAux fuel rest3
        | none => c :: stripOscAux fuel rest
      | _ => c :: stripOscAux fuel rest
    else c :: stripOscAux fuel rest

/-- `.replace(/\x1b[()][A-Za-z0-9]/g, '')`. -/
def stripCharsetAux : Nat → List Char → List Char
  | 0, l => l
  | _, [] => []
  | fuel + 1, c :: rest =>
    if c = '\x1b' then
      match rest with
      | p :: a :: rest2 =>
        if (p = '(' || p = ')') && a.isAlphanum then stripCharsetAux fuel rest2
        else c :: stripCharsetAux fuel rest
      | _ => c :: stripCharsetAux fuel rest
    else c :: stripCharsetAux fuel rest

/-- Control characters dropped by the final replace:
`[\x00-\x08\x0B\x0C\x0E-\x1F\x7F]`. -/
def keptCtrlChar (c : Char) : Bool :=
  decide (¬ (c.toNat ≤ 8 ∨ c.toNat = 11 ∨ c.toNat = 12 ∨
    (14 ≤ c.toNat ∧ c.toNat ≤ 31) ∨ c.toNat = 127))

/-- `sanitizeCliOutput` (part_003 lines 759-767). -/
def sanitizeCliOutput (output : String) : String :=
  if output = "" then ""
  else
    let l1 := stripCsiAux output.data.length output.data
    let l2 := stripOscAux l1.length l1
    let l3 := stripCharsetAux l2.length l2
    String.mk (l3.filter keptCtrlChar)

def spinnerGlyphs : List Char := ['⠋', '⠙', '⠹', '⠸', '⠼', '⠴', '⠦', '⠧', '⠇', '⠏']

/-- `stripOllamaSpinner` (part_003 lines 769-773). -/
def stripOllamaSpinner (output : String) : String :=
  if output = "" then ""
  else String.mk (output.data.filter (fun c => !(spinnerGlyphs.contains c)))

/-! ## One turn of `spawnGemini` as a state machine -/

/-- Per-turn immutable data: the caller's options, the resolved provider
tag, the `Date.now()` values observed at spawn and at first output, the
native process id, the staged attachments and the `JSON.parse` oracle. -/
structure TurnConfig where
  sessionId : Option String
  command : String
  cliProvider : String
  cwd : String
  processCwd : String
  spawnNow : Nat
  outNow : Nat
  pid : Nat
  tempImagePaths : List String
  tempDir : Option String
  parse : String → Option Json

/-- `const processKey = capturedSessionId || sessionId || Date.now().toString()`
(part_003 line 1067); at spawn time `capturedSessionId === sessionId`. -/
def TurnConfig.processKey (cfg : TurnConfig) : String :=
  jsOrStr cfg.sessionId (Nat.repr cfg.spawnNow)

/-- `if (ws && cliProvider !== 'ollama')` a `GeminiResponseHandler` buffer is
created (part_003 line 1098); `ws` is always supplied. -/
def TurnConfig.hasResponseHandler (cfg : TurnConfig) : Bool :=
  cfg.cliProvider ≠ "ollama"

/-- The timeout error text (part_003 line 1085). -/
def timeoutText (cfg : TurnConfig) : String :=
  providerLabelFor cfg.cliProvider ++ " CLI timeout - no response received"

/-- Mutable per-turn state captured by the `spawnGemini` closures. -/
structure TurnState where
  hasReceivedOutput : Bool
  timeoutCleared : Bool
  capturedSessionId : Option String
  sessionCreatedSent : Bool
  fullResponse : String
  outputBuffer : String
  codexLineBuffer : String
  codexStderrBuffer : String
  pendingExternalSessionId : Option Json
  registry : Registry
  store : SessionStore

/-- State right after the spawn: the handle is registered under
`processKey` and all accumulators are empty. -/
def mkTurnState (cfg : TurnConfig) (store0 : SessionStore) : TurnState :=
  { hasReceivedOutput := false
    timeoutCleared := false
    capturedSessionId := cfg.sessionId
    sessionCreatedSent := false
    fullResponse := ""
    outputBuffer := ""
    codexLineBuffer := ""
    codexStderrBuffer := ""
    pendingExternalSessionId := none
    registry := mapSet [] cfg.processKey cfg.pid
    store := store0 }

/-- `fullResponse += (fullResponse ? '\n' : '') + content`. -/
def appendResp (full content : String) : String :=
  if full ≠ "" then full ++ "\x0a" ++ content else content

/-- `event.item?.type === 'agent_message'`. -/
def jsonItemTypeIsAgentMessage (e : Json) : Bool :=
  match (e.getField "item").bind (fun i => i.getField "type") with
  | some (.str s) => s = "agent_message"
  | _ => false

/-- `event.error?.message || event.message || 'Codex CLI error'`
(part_003 line 1161). -/
def codexFailMsg (e : Json) : String :=
  jsStrOr ((e.getField "error").bind (fun x => x.getField "message"))
    (jsStrOr (e.getField "message") "Codex CLI error")

/-- One parsed codex event dispatched by the stdout handler
(part_003 lines 1133-1163); the three `if`s are sequential, not exclusive. -/
def handleCodexEvent (cfg : TurnConfig) (st : TurnState) (event : Json) :
    TurnState × List Action :=
  let r1 :=
    if jsonFieldIsStr event "type" "thread.started" && jsTruthy (event.getField "thread_id") then
      let tid := (event.getField "thread_id").getD Json.null
      let st1 := { st with pendingExternalSessionId := some tid }
      if optStrTruthy st1.capturedSessionId then
        let cid := (st1.capturedSessionId).getD ""
        ({ st1 with store := st1.store.setExternal cid tid }, [Action.setExternalAct cid tid])
      else (st1, [])
    else (st, [])
  let r2 :=
    if jsonFieldIsStr event "type" "item.completed" && jsonItemTypeIsAgentMessage event then
      let content := jsonStrOrEmpty ((event.getField "item").bind (fun i => i.getField "text"))
      if content ≠ "" then
        let st2 := { r1.1 with fullResponse := appendResp r1.1.fullResponse content }
        if cfg.hasResponseHandler then (st2, [Action.bufferProcessData content])
        else (st2, [Action.wsSend (WsMsg.geminiResponse content)])
      else (r1.1, [])
    else (r1.1, [])
  let errActs :=
    if jsonFieldIsStr event "type" "turn.failed" || jsonFieldIsStr event "type" "error" then
      [Action.wsSend (WsMsg.geminiError (codexFailMsg event))]
    else []
  (r2.1, r1.2 ++ r2.2 ++ errActs)

/-- One complete line of codex stdout: trim, skip blanks, `JSON.parse`
inside try/catch with `continue` on failure (part_003 lines 1122-1131). -/
def handleCodexLine (cfg : TurnConfig) (st : TurnState) (line : String) :
    TurnState × List Action :=
  let trimmed := jsTrim line
  if trimmed = "" then (st, [])
  else
    match cfg.parse trimmed with
    | none => (st, [])
    | some event => handleCodexEvent cfg st event

def processCodexLines (cfg : TurnConfig) (st : TurnState) :
    List String → TurnState × List Action
  | [] => (st, [])
  | l :: rest =>
    let r1 := handleCodexLine cfg st l
    let r2 := processCodexLines cfg r1.1 rest
    (r2.1, r1.2 ++ r2.2)

/-- The codex stdout branch: accumulate into the line buffer, split on
newlines and keep the trailing partial line (part_003 lines 1117-1121). -/
def codexStdout (cfg : TurnConfig) (st : TurnState) (rawOutput : String) :
    TurnState × List Action :=
  let buf := st.codexLineBuffer ++ rawOutput
  let parts := jsSplitNl buf
  let newBuffer := (parts.getLast?).getD ""
  let lines := parts.dropLast
  processCodexLines cfg { st with codexLineBuffer := newBuffer } lines

def geminiNoiseMarkers : List String :=
  ["[DEBUG]", "Flushing log events", "Clearcut response", "[MemoryDiscovery]",
   "[BfsFileSearch]", "Loaded cached credentials"]

def lineIsGeminiNoise (line : String) : Bool :=
  geminiNoiseMarkers.any (fun m => strContains line m)

/-- The gemini stdout branch (part_003 lines 1165-1197). -/
def geminiStdout (cfg : TurnConfig) (st : TurnState) (rawOutput : String) :
    TurnState × List Action :=
  let lines := jsSplitNl rawOutput
  let filteredLines := lines.filter (fun l => !(lineIsGeminiNoise l))
  let filteredOutput := jsTrim (nlJoin filteredLines)
  if filteredOutput ≠ "" then
    let st1 := { st with fullResponse := appendResp st.fullResponse filteredOutput }
    if cfg.hasResponseHandler then (st1, [Action.bufferProcessData filteredOutput])
    else (st1, [Action.wsSend (WsMsg.geminiResponse filteredOutput)])
  else (st, [])

/-- The ollama stdout branch accumulates sanitized text without streaming
(part_003 lines 1198-1202). -/
def ollamaStdout (st : TurnState) (rawOutput : String) : TurnState × List Action :=
  let sanitizedOutput := stripOllamaSpinner (sanitizeCliOutput rawOutput)
  if jsTrim sanitizedOutput ≠ "" then
    ({ st with fullResponse := st.fullResponse ++ sanitizedOutput }, [])
  else (st, [])

/-- The default stdout branch (claude, bmad): trim and stream
(part_003 lines 1203-1220). -/
def defaultStdout (cfg : TurnConfig) (st : TurnState) (rawOutput : String) :
    TurnState × List Action :=
  let trimmedOutput := jsTrim rawOutput
  if trimmedOutput ≠ "" then
    let st1 := { st with fullResponse := appendResp st.fullResponse trimmedOutput }
    if cfg.hasResponseHandler then (st1, [Action.bufferProcessData trimmedOutput])
    else (st1, [Action.wsSend (WsMsg.geminiResponse trimmedOutput)])
  else (st, [])

def stdoutBranch (cfg : TurnConfig) (st : TurnState) (rawOutput : String) :
    TurnState × List Action :=
  if cfg.cliProvider = "codex" then codexStdout cfg st rawOutput
  else if cfg.cliProvider = "gemini" then geminiStdout cfg st rawOutput
  else if cfg.cliProvider = "ollama" then ollamaStdout st rawOutput
  else defaultStdout cfg st rawOutput

/-- The lazy session-creation block at the end of the stdout handler
(part_003 lines 1222-1250). -/
def maybeCreateSession (cfg : TurnConfig) (st : TurnState) : TurnState × List Action :=
  if !optStrTruthy cfg.sessionId && !st.sessionCreatedSent && !optStrTruthy st.capturedSessionId then
    let tag := sessionTagFor cfg.cliProvider
    let newId := tag ++ "_" ++ Nat.repr cfg.outNow
    let st1 := { st with sessionCreatedSent := true, capturedSessionId := some newId }
    let effCwd := if cfg.cwd ≠ "" then cfg.cwd else cfg.processCwd
    let st2 := { st1 with store := st1.store.createSession newId effCwd cfg.cliProvider }
    let st3 :=
      if cfg.command ≠ "" then
        { st2 with store := st2.store.addMessage newId "user" cfg.command }
      else st2
    let r4 :=
      match st3.pendingExternalSessionId with
      | some ext =>
        ({ st3 with store := st3.store.setExternal newId ext }, [Action.setExternalAct newId ext])
      | none => (st3, [])
    let st5 :=
      if cfg.processKey ≠ newId then
        { r4.1 with registry := mapSet (mapDelete r4.1.registry cfg.processKey) newId cfg.pid }
      else r4.1
    (st5, r4.2 ++ [Action.wsSend (WsMsg.sessionCreated newId)])
  else (st, [])

/-- The stdout `data` handler (part_003 lines 1111-1251). -/
def onStdoutData (cfg : TurnConfig) (st : TurnState) (data : String) :
    TurnState × List Action :=
  let st0 := { st with
    outputBuffer := st.outputBuffer ++ data
    hasReceivedOutput := true
    timeoutCleared := true }
  let r1 := stdoutBranch cfg st0 data
  let r2 := maybeCreateSession cfg r1.1
  (r2.1, r1.2 ++ r2.2)

def stderrNoiseMarkers : List String :=
  ["[DEP0040]", "DeprecationWarning", "--trace-deprecation", "Loaded cached credentials"]

/-- The stderr `data` handler (part_003 lines 1254-1288). -/
def onStderrData (cfg : TurnConfig) (st : TurnState) (errMsg : String) :
    TurnState × List Action :=
  if stderrNoiseMarkers.any (fun m => strContains errMsg m) then (st, [])
  else if cfg.cliProvider = "codex" then
    ({ st with codexStderrBuffer := st.codexStderrBuffer ++ errMsg }, [])
  else if cfg.cliProvider = "ollama" then
    let sanitizedError := jsTrim (stripOllamaSpinner (sanitizeCliOutput errMsg))
    if sanitizedError = "" then (st, [])
    else (st, [Action.wsSend (WsMsg.geminiError sanitizedError)])
  else (st, [Action.wsSend (WsMsg.geminiError errMsg)])

/-- The no-output timeout callback (part_003 lines 1080-1089). -/
def onTimeout (cfg : TurnConfig) (st : TurnState) : TurnState × List Action :=
  if !st.hasReceivedOutput then
    (st, [Action.wsSend (WsMsg.geminiError (timeoutText cfg)), Action.killSigterm cfg.pid])
  else (st, [])

/-- `capturedSessionId || sessionId || processKey` (part_003 line 1312). -/
def finalSessionId (cfg : TurnConfig) (st : TurnState) : String :=
  jsOrStr st.capturedSessionId (jsOrStr cfg.sessionId cfg.processKey)

/-- The codex trailing-partial-line salvage at close (part_003 lines
1295-1303). -/
def closeCodexTail (cfg : TurnConfig) (st : TurnState) : TurnState :=
  if cfg.cliProvider = "codex" ∧ jsTrim st.codexLineBuffer ≠ "" then
    match cfg.parse (jsTrim st.codexLineBuffer) with
    | some event =>
      let text := jsonStrOrEmpty ((event.getField "item").bind (fun i => i.getField "text"))
      if jsonFieldIsStr event "type" "item.completed" && jsonItemTypeIsAgentMessage event &&
          jsTruthy ((event.getField "item").bind (fun i => i.getField "text")) then
        { st with fullResponse := appendResp st.fullResponse text }
      else st
    | none => st
  else st

/-- JS `${code}` for the exit code (`null` when killed by signal). -/
def renderExitCode : Option Int → String
  | some n => toString n
  | none => "null"

/-- State updates of the `close` handler (part_003 lines 1291-1362):
`clearTimeout`, the codex tail salvage, registry removal, and persisting
the accumulated assistant text when non-empty. -/
def onCloseState (cfg : TurnConfig) (st : TurnState) : TurnState :=
  let st1 := { closeCodexTail cfg st with timeoutCleared := true }
  let fsid := finalSessionId cfg st1
  let st2 := { st1 with registry := mapDelete st1.registry fsid }
  if fsid ≠ "" ∧ st2.fullResponse ≠ "" then
    { st2 with store := st2.store.addMessage fsid "assistant" st2.fullResponse }
  else st2

/-- Effects of the `close` handler in program order (part_003 lines
1291-1362): buffer flush and dispose, codex stderr surfacing on non-zero
exit, the batched ollama response, the terminal `gemini-complete` event,
temp-artifact removal, then promise settlement. -/
def onCloseActs (cfg : TurnConfig) (st : TurnState) (code : Option Int) : List Action :=
  let st1 := closeCodexTail cfg st
  let flushActs :=
    if cfg.hasResponseHandler then [Action.bufferForceFlush, Action.bufferDestroy] else []
  let stderrActs :=
    if cfg.cliProvider = "codex" ∧ code ≠ some 0 ∧ jsTrim st1.codexStderrBuffer ≠ "" then
      [Action.wsSend (WsMsg.geminiError (jsTrim st1.codexStderrBuffer))]
    else []
  let ollamaActs :=
    if cfg.cliProvider = "ollama" ∧ jsTrim st1.fullResponse ≠ "" then
      [Action.wsSend (WsMsg.geminiResponse (jsTrim st1.fullResponse))]
    else []
  let completeActs :=
    [Action.wsSend (WsMsg.geminiComplete code (!optStrTruthy cfg.sessionId && cfg.command ≠ ""))]
  let cleanupActs :=
    if cfg.tempImagePaths ≠ [] then
      (cfg.tempImagePaths.map Action.fsUnlink) ++
        (match cfg.tempDir with
         | some d => [Action.fsRmRf d]
         | none => [])
    else []
  let resultActs :=
    if code = some 0 then [Action.resolveP]
    else [Action.rejectP (providerLabelFor cfg.cliProvider ++ " CLI exited with code " ++
      renderExitCode code)]
  flushActs ++ stderrActs ++ ollamaActs ++ completeActs ++ cleanupActs ++ resultActs

def onClose (cfg : TurnConfig) (st : TurnState) (code : Option Int) :
    TurnState × List Action :=
  (onCloseState cfg st, onCloseActs cfg st code)

/-- The process `error` handler (part_003 lines 1365-1378). -/
def onProcError (cfg : TurnConfig) (st : TurnState) (errMsg : String) :
    TurnState × List Action :=
  let fsid := finalSessionId cfg st
  ({ st with registry := mapDelete st.registry fsid },
    [Action.wsSend (WsMsg.geminiError errMsg), Action.rejectP errMsg])

/-- Asynchronous events delivered to the turn by the runtime. -/
inductive TurnInput
  | stdout (data : String)
  | stderrIn (data : String)
  | timerFire
  | close (code : Option Int)
  | procError (msg : String)

def stepTurn (cfg : TurnConfig) (st : TurnState) : TurnInput → TurnState × List Action
  | .stdout d => onStdoutData cfg st d
  | .stderrIn d => onStderrData cfg st d
  | .timerFire => onTimeout cfg st
  | .close c => onClose cfg st c
  | .procError m => onProcError cfg st m

def runTurn (cfg : TurnConfig) (st : TurnState) : List TurnInput → TurnState × List Action
  | [] => (st, [])
  | i :: rest =>
    let r1 := stepTurn cfg st i
    let r2 := runTurn cfg r1.1 rest
    (r2.1, r1.2 ++ r2.2)

/-! Node timer semantics for the single `setTimeout`: the callback runs at
most once, and cannot run after `clearTimeout` — which the code calls on
every stdout `data` event and in the `close` handler. -/

def isStdoutIn : TurnInput → Bool
  | .stdout _ => true
  | _ => false

def isStderrInput : TurnInput → Bool
  | .stderrIn _ => true
  | _ => false

def isTimerFire : TurnInput → Bool
  | .timerFire => true
  | _ => false

def isProcErrorInput : TurnInput → Bool
  | .procError _ => true
  | _ => false

def isCloseInput : TurnInput → Bool
  | .close _ => true
  | _ => false

def clearsTimeout : TurnInput → Bool
  | .stdout _ => true
  | .close _ => true
  | _ => false

def timerValidAux : Bool → Bool → List TurnInput → Bool
  | _, _, [] => true
  | seenClear, seenFire, i :: rest =>
    if isTimerFire i then
      if seenClear || seenFire then false else timerValidAux seenClear true rest
    else timerValidAux (seenClear || clearsTimeout i) seenFire rest

/-- An input sequence consistent with Node's one-shot timer semantics. -/
def timerValid (inputs : List TurnInput) : Prop :=
  timerValidAux false false inputs = true

/-! ## Filesystem effect of a trace (for artifact cleanup) -/

/-- One filesystem effect: `fs.unlink` removes one path,
`fs.rm(..., { recursive: true })` removes the directory and everything
below it; nothing else touches the filesystem. -/
def applyFsOne (f : List String) : Action → List String
  | .fsUnlink p => f.filter (fun q => q != p)
  | .fsRmRf d => f.filter (fun q => !(q == d || d.isPrefixOf q))
  | _ => f

/-- Apply the filesystem effects of a trace to a set of existing paths.
No action in this subsystem creates paths. -/
def applyFsActions (fs : List String) (acts : List Action) : List String :=
  acts.foldl applyFsOne fs

/-! ## Trace classifiers -/

def isSessionCreatedAct : Action → Bool
  | .wsSend (.sessionCreated _) => true
  | _ => false

def isSetExternalAct : Action → Bool
  | .setExternalAct _ _ => true
  | _ => false

def isTimeoutErrAct (cfg : TurnConfig) : Action → Bool
  | .wsSend (.geminiError m) => m == timeoutText cfg
  | _ => false

def isCompleteWithCode (code : Option Int) : Action → Bool
  | .wsSend (.geminiComplete c _) => c == code
  | _ => false

/-! ## Supporting lemmas -/

theorem scanContains_self (l : List Char) : scanContains l l = true := by
  cases l with
  | nil => rfl
  | cons c rest =>
    simp only [scanContains, Bool.or_eq_true]
    left
    simp [List.isPrefixOf_iff_prefix]

theorem strContains_self (s : String) : strContains s s = true :=
  scanContains_self s.data

theorem subKeyMatch_self (s : String) : subKeyMatch s s = true := by
  simp [subKeyMatch, strContains_self]

theorem containsKey_mapDelete_self (m : Registry) (k : String) :
    containsKey (mapDelete m k) k = false := by
  simp only [containsKey, mapDelete, List.any_eq_true, not_exists]
  simp only [List.any_eq_false]
  intro kv hkv
  rcases List.mem_filter.mp hkv with ⟨_, hne⟩
  simpa [bne_iff_ne] using hne

theorem containsKey_mapSet_other (m : Registry) (k k2 : String) (v : Nat) (hne : k2 ≠ k) :
    containsKey (mapSet m k2 v) k = containsKey m k := by
  simp only [mapSet]
  split
  · simp only [containsKey, List.any_map]
    congr 1
    funext kv
    simp only [Function.comp_apply]
    split
    · next heq =>
      simp only [beq_iff_eq] at heq
      rw [heq]
    · rfl
  · simp only [containsKey, List.any_append, List.any_cons, List.any_nil]
    have : (k2 == k) = false := beq_eq_false_iff_ne.mpr hne
    rw [this]
    simp

theorem containsKey_applyRegOps_false (m : Registry) (ops : List RegOp) (k : String)
    (hm : containsKey m k = false)
    (hops : ∀ op ∈ ops, ∀ v, op ≠ RegOp.setEntry k v) :
    containsKey (applyRegOps m ops) k = false := by
  induction ops generalizing m with
  | nil => simpa [applyRegOps]
  | cons op rest ih =>
    simp only [applyRegOps, List.foldl_cons] at *
    cases op with
    | setEntry k2 v =>
      have hne : k2 ≠ k := by
        intro h
        exact (hops (RegOp.setEntry k2 v) (by simp) v) (by rw [h])
      refine ih (mapSet m k2 v) ?_ (fun op hop v => hops op (by simp [hop]) v)
      rw [containsKey_mapSet_other m k k2 v hne]
      exact hm
    | delEntry k2 =>
      refine ih (mapDelete m k2) ?_ (fun op hop v => hops op (by simp [hop]) v)
      simp only [containsKey, List.any_eq_false] at hm ⊢
      intro kv hkv
      exact hm kv (List.mem_filter.mp hkv).1

/-! ## Claim C8 — unknown provider tags -/

/-- Claim C8 (as stated, refuted): the spec claims a turn with an unknown
provider tag is rejected.  In the code, `normalizeProvider` coerces any
tag other than codex/claude/webllm to `"gemini"`, so the turn runs under
the default gemini provider profile (label `Gemini`, 30s timeout) instead
of failing. -/
theorem claim_c8_counterexample :
    normalizeProvider "gemini" (some "foobar") = "gemini" ∧
    "foobar" ≠ "codex" ∧ "foobar" ≠ "claude" ∧ "foobar" ≠ "webllm" ∧ "foobar" ≠ "gemini" ∧
    providerLabelFor (normalizeProvider "gemini" (some "foobar")) = "Gemini" ∧
    timeoutMsFor (normalizeProvider "gemini" (some "foobar")) = 30000 := by
  refine ⟨rfl, ?_, ?_, ?_, ?_, rfl, rfl⟩ <;> decide

/-- Claim C8 (amended): a turn started with an unknown provider tag is not
rejected; `normalizeProvider` maps every non-empty tag whose lower-casing
is none of codex/claude/webllm to `"gemini"`, and a missing tag resolves
to the module-level default provider. -/
theorem claim_c8_unknown_provider_defaults
    (defaultProvider tag : String)
    (h0 : tag ≠ "")
    (h1 : jsToLower tag ≠ "codex") (h2 : jsToLower tag ≠ "claude")
    (h3 : jsToLower tag ≠ "webllm") :
    normalizeProvider defaultProvider (some tag) = "gemini" ∧
    normalizeProvider defaultProvider none = defaultProvider := by
  constructor
  · simp only [normalizeProvider]
    rw [if_neg h0, if_neg h1, if_neg h2, if_neg h3]
  · rfl

theorem claim_c8_unknown_provider_defaults_witness :
    normalizeProvider "gemini" (some "my-new-cli") = "gemini" :=
  (claim_c8_unknown_provider_defaults "gemini" "my-new-cli"
    (by decide) (by decide) (by decide) (by decide)).1

/-! ## Claim C9 — project-name round-trip -/

/-- Claim C9 (code bug): the base64url project-name codec does not
round-trip losslessly, contrary to the code's own comments ("decode
losslessly", part_003 lines 22-27 and 631-632).  `"/a?"` encodes to
`"L2E_"`, whose final `_` is a significant base64url character; the
decoder strips trailing `[_-]` before decoding (a legacy-padding
heuristic), and the intended fallback decode of the unstripped name is
dead code because Node's `Buffer.from(name, 'base64url')` never throws.
The decoder therefore returns `"/a"` for a filesystem in which none of the
probed paths exist. -/
theorem claim_c9_lossy_roundtrip :
    encodeProjectPathToName "/a?" = "L2E_" ∧
    decodeProjectNameToPath (fun _ => false) (encodeProjectPathToName "/a?") = some "/a" ∧
    ("/a?" : String) ≠ "/a" := by
  refine ⟨?_, ?_, by decide⟩ <;> rfl

/-! ## Claim C6 — gemini argument vector -/

theorem foldl_insert_eq (ds : List String) (hnd : ds.Nodup) :
    ∀ base : List String,
      ds.foldl (fun acc tool => if acc.contains tool then acc else acc ++ [tool]) base =
        base ++ ds.filter (fun t => !(base.contains t)) := by
  induction ds with
  | nil => intro base; simp
  | cons d rest ih =>
    intro base
    have hd : d ∉ rest := (List.nodup_cons.mp hnd).1
    have hrest : rest.Nodup := (List.nodup_cons.mp hnd).2
    simp only [List.foldl_cons, List.filter_cons]
    by_cases hmem : d ∈ base
    · rw [if_pos (by simpa [List.elem_eq_mem] using hmem)]
      rw [ih hrest base]
      simp [List.elem_eq_mem, hmem]
    · rw [if_neg (by simpa [List.elem_eq_mem] using hmem)]
      rw [ih hrest (base ++ [d])]
      have hfilter : rest.filter (fun t => !((base ++ [d]).contains t)) =
          rest.filter (fun t => !(base.contains t)) := by
        apply List.filter_congr
        intro t ht
        have htd : t ≠ d := fun h => hd (h ▸ ht)
        simp [List.elem_eq_mem, htd]
      rw [hfilter]
      simp [List.elem_eq_mem, hmem, List.filter_cons]

theorem addCriticalTools_eq (base : List String) :
    addCriticalTools base = base ++ criticalTools.filter (fun t => !(base.contains t)) :=
  foldl_insert_eq criticalTools (by decide) base

theorem mem_addCriticalTools (base : List String) (t : String) (ht : t ∈ criticalTools) :
    t ∈ addCriticalTools base := by
  rw [addCriticalTools_eq]
  by_cases hb : t ∈ base
  · exact List.mem_append_left _ hb
  · refine List.mem_append_right _ ?_
    simp [List.mem_filter, ht, List.elem_eq_mem, hb]

theorem addCriticalTools_ne_nil (base : List String) : addCriticalTools base ≠ [] := by
  intro h
  have := mem_addCriticalTools base "Bash" (by decide)
  rw [h] at this
  exact absurd this (List.not_mem_nil _)

theorem nodup_addCriticalTools (base : List String) (hb : base.Nodup) :
    (addCriticalTools base).Nodup := by
  rw [addCriticalTools_eq]
  refine List.Nodup.append hb (List.Nodup.filter _ (by decide)) ?_
  intro t htb htf
  have := (List.mem_filter.mp htf).2
  simp [List.elem_eq_mem] at this
  exact this htb

/-- Claim C6: the gemini argument vector.  With `skipPermissions` it
contains `--yolo` and (provided no other input literally equals the flag
string) no `--allowed-tools`; otherwise it contains `--allowed-tools`
followed by the caller's allow-list extended with exactly the critical
tools not already present, a list that contains every critical tool and is
duplicate-free whenever the caller's list is; the model flag carries the
caller's override or else the provider default; and a non-empty prompt is
always the final argument. -/
theorem claim_c6_gemini_args
    (debug : Bool) (mcp : Option String) (model : Option String)
    (settings : ToolsSettings) (prompt : String) :
    (settings.skipPermissions = true →
       "--yolo" ∈ buildGeminiArgs debug mcp model settings prompt ∧
       (mcp ≠ some "--allowed-tools" → jsOrStr model "gemini-2.5-flash" ≠ "--allowed-tools" →
        prompt ≠ "--allowed-tools" →
          "--allowed-tools" ∉ buildGeminiArgs debug mcp model settings prompt)) ∧
    (settings.skipPermissions = false →
       ("--allowed-tools" ::
           (settings.allowedTools ++
             criticalTools.filter (fun t => !(settings.allowedTools.contains t)))) <:+:
         buildGeminiArgs debug mcp model settings prompt ∧
       (∀ t ∈ criticalTools, t ∈ addCriticalTools settings.allowedTools) ∧
       (settings.allowedTools.Nodup → (addCriticalTools settings.allowedTools).Nodup)) ∧
    ["--model", jsOrStr model "gemini-2.5-flash"] <:+:
      buildGeminiArgs debug mcp model settings prompt ∧
    (prompt ≠ "" → (buildGeminiArgs debug mcp model settings prompt).getLast? = some prompt) := by
  refine ⟨?_, ?_, ?_, ?_⟩
  · intro hskip
    constructor
    · simp [buildGeminiArgs, hskip]
    · intro hmcp hmodel hprompt hmem
      simp only [buildGeminiArgs, hskip, if_true, List.append_assoc, List.mem_append] at hmem
      rcases hmem with h | h | h | h | h
      · split at h <;> simp_all
      · split at h
        · next q =>
          simp only [List.mem_cons, List.mem_singleton, List.not_mem_nil, or_false] at h
          rcases h with h | h
          · exact absurd h (by decide)
          · exact hmcp (by rw [← h])
        · simp at h
      · simp only [List.mem_cons, List.mem_singleton, List.not_mem_nil, or_false] at h
        rcases h with h | h
        · exact absurd h (by decide)
        · exact hmodel h.symm
      · simp only [List.mem_singleton] at h
        exact absurd h (by decide)
      · split at h
        · simp only [List.mem_singleton] at h
          exact hprompt h.symm
        · simp at h
  · intro hskip
    refine ⟨?_, fun t ht => mem_addCriticalTools _ t ht, nodup_addCriticalTools _⟩
    have hne := addCriticalTools_ne_nil settings.allowedTools
    refine ⟨(if debug then ["--debug"] else []) ++
      (match mcp with | some p => ["--mcp-config", p] | none => []) ++
      ["--model", jsOrStr model "gemini-2.5-flash"],
      (if prompt ≠ "" then [prompt] else []), ?_⟩
    simp only [buildGeminiArgs, hskip, if_false]
    rw [if_pos hne, addCriticalTools_eq]
    simp [List.append_assoc]
  · refine ⟨(if debug then ["--debug"] else []) ++
      (match mcp with | some p => ["--mcp-config", p] | none => []),
      ((if settings.skipPermissions then ["--yolo"]
        else
          if addCriticalTools settings.allowedTools ≠ [] then
            "--allowed-tools" :: addCriticalTools settings.allowedTools
          else []) ++ (if prompt ≠ "" then [prompt] else [])), ?_⟩
    simp only [buildGeminiArgs]
    simp [List.append_assoc]
  · intro hp
    simp only [buildGeminiArgs]
    rw [if_pos hp]
    exact List.getLast?_concat _

theorem claim_c6_gemini_args_witness :
    "--yolo" ∈ buildGeminiArgs false none none ⟨[], [], true⟩ "hi" ∧
    "--allowed-tools" ∉ buildGeminiArgs false none none ⟨[], [], true⟩ "hi" ∧
    (buildGeminiArgs false none (some "gemini-2.5-pro") ⟨["Bash"], [], false⟩ "hi").getLast? =
      some "hi" := by
  refine ⟨?_, ?_, ?_⟩
  · exact ((claim_c6_gemini_args false none none ⟨[], [], true⟩ "hi").1 rfl).1
  · exact ((claim_c6_gemini_args false none none ⟨[], [], true⟩ "hi").1 rfl).2
      (by decide) (by decide) (by decide)
  · exact (claim_c6_gemini_args false none (some "gemini-2.5-pro")
      ⟨["Bash"], [], false⟩ "hi").2.2.2 (by decide)

/-! ## Claim C3 — abortGeminiSession -/

/-- Claim C3: `abortGeminiSession` looks the handle up by exact key and
then by substring match; when a handle is found its key is removed from
the registry before returning, the matched key resolves to the session,
and — provided at most one registered key resolves to the session, the
invariant the orchestrator maintains — no resolvable key remains
registered; the call returns true exactly when a registered live process
was found (the registry is the only thing consulted, so the result is
independent of whether the process has already exited). -/
theorem claim_c3_abort (registry : Registry) (sessionId : String) :
    ((abortGeminiSession registry sessionId).found = true ↔
       ∃ kv ∈ registry, subKeyMatch kv.1 sessionId = true) ∧
    (∀ k, (abortGeminiSession registry sessionId).matchedKey = some k →
       containsKey (abortGeminiSession registry sessionId).registry k = false ∧
       subKeyMatch k sessionId = true) ∧
    ((∀ kv1 ∈ registry, ∀ kv2 ∈ registry,
        subKeyMatch kv1.1 sessionId = true → subKeyMatch kv2.1 sessionId = true →
          kv1.1 = kv2.1) →
      (abortGeminiSession registry sessionId).found = true →
      ∀ kv ∈ (abortGeminiSession registry sessionId).registry,
        subKeyMatch kv.1 sessionId = false) := by
  have hcase :
      (∃ kv, (match registry.find? (fun kv => kv.1 == sessionId) with
        | some kv => some kv
        | none => registry.find? (fun kv => subKeyMatch kv.1 sessionId)) = some kv ∧
        kv ∈ registry ∧ subKeyMatch kv.1 sessionId = true) ∨
      ((match registry.find? (fun kv => kv.1 == sessionId) with
        | some kv => some kv
        | none => registry.find? (fun kv => subKeyMatch kv.1 sessionId)) = none ∧
        ∀ kv ∈ registry, subKeyMatch kv.1 sessionId = false) := by
    cases hex : registry.find? (fun kv => kv.1 == sessionId) with
    | some kv =>
      left
      refine ⟨kv, by simp [hex], List.mem_of_find?_eq_some hex, ?_⟩
      have := List.find?_some hex
      simp only [beq_iff_eq] at this
      rw [this]
      exact subKeyMatch_self sessionId
    | none =>
      cases hsub : registry.find? (fun kv => subKeyMatch kv.1 sessionId) with
      | some kv =>
        left
        have hpred := @List.find?_some (String × Nat)
          (fun kv : String × Nat => subKeyMatch kv.1 sessionId) kv registry hsub
        exact ⟨kv, by simp [hex, hsub], List.mem_of_find?_eq_some hsub, hpred⟩
      | none =>
        right
        refine ⟨by simp [hex, hsub], fun kv hkv => ?_⟩
        have := List.find?_eq_none.mp hsub kv hkv
        simpa using this
  rcases hcase with ⟨kv0, hfind, hmem, hmatch⟩ | ⟨hfind, hnone⟩
  · refine ⟨?_, ?_, ?_⟩
    · simp only [abortGeminiSession, hfind]
      refine ⟨fun _ => ⟨kv0, hmem, hmatch⟩, fun _ => ?_⟩
      trivial
    · intro k hk
      simp only [abortGeminiSession, hfind] at hk ⊢
      have hk0 : k = kv0.1 := by simpa using hk.symm
      subst hk0
      exact ⟨containsKey_mapDelete_self _ _, hmatch⟩
    · intro huniq _ kv hkv
      simp only [abortGeminiSession, hfind] at hkv
      have hkvmem : kv ∈ registry := (List.mem_filter.mp hkv).1
      have hkvne : kv.1 ≠ kv0.1 := by
        have := (List.mem_filter.mp hkv).2
        simpa [bne_iff_ne] using this
      by_contra hmt
      simp only [Bool.not_eq_false] at hmt
      exact hkvne (huniq kv hkvmem kv0 hmem hmt hmatch)
  · refine ⟨?_, ?_, ?_⟩
    · simp only [abortGeminiSession, hfind]
      refine ⟨fun h => absurd h (by simp), fun ⟨kv, hkv, hm⟩ => ?_⟩
      have := hnone kv hkv
      rw [hm] at this
      exact absurd this (by simp)
    · intro k hk
      simp only [abortGeminiSession, hfind] at hk
      exact absurd hk (by simp)
    · intro _ hfound
      simp only [abortGeminiSession, hfind] at hfound
      exact absurd hfound (by simp)

theorem claim_c3_abort_witness :
    (abortGeminiSession [("gemini_1700000000000", 7)] "1700000000000").found = true ∧
    (∀ kv ∈ (abortGeminiSession [("gemini_1700000000000", 7)] "1700000000000").registry,
       subKeyMatch kv.1 "1700000000000" = false) := by
  refine ⟨?_, ?_⟩
  · exact (claim_c3_abort [("gemini_1700000000000", 7)] "1700000000000").1.mpr
      ⟨("gemini_1700000000000", 7), by decide, by decide⟩
  · exact (claim_c3_abort [("gemini_1700000000000", 7)] "1700000000000").2.2
      (by decide)
      ((claim_c3_abort [("gemini_1700000000000", 7)] "1700000000000").1.mpr
        ⟨("gemini_1700000000000", 7), by decide, by decide⟩)

/-! ## Claim C10 — force-kill after successful abort -/

/-- Claim C10 (as stated, refuted): the claim says that in every execution
in which `abortGeminiSession` returns true, the delayed force-kill
callback never sends SIGKILL because the key was deleted synchronously.
But the callback only re-checks key membership: if a new turn registers a
process under the same key within the 2-second grace period, the guard is
true again and SIGKILL is sent to the old process captured by the
closure. -/
theorem claim_c10_counterexample :
    (abortGeminiSession [("s1", 1)] "s1").found = true ∧
    (abortGeminiSession [("s1", 1)] "s1").scheduledKill = some ("s1", 1) ∧
    forceKillCallback
      (applyRegOps (abortGeminiSession [("s1", 1)] "s1").registry [RegOp.setEntry "s1" 2])
      ("s1", 1) = [Action.killSigkill 1] := by
  exact ⟨rfl, rfl, rfl⟩

/-- Claim C10 (amended): after a successful abort the matched key is
deleted synchronously, so as long as no registry operation re-adds an
entry under that key before the grace timer fires, the force-kill callback
sends nothing, and the abort itself sends only SIGTERM. -/
theorem claim_c10_no_sigkill_without_rereg
    (registry : Registry) (sessionId : String) (ops : List RegOp) (k : String) (pid : Nat)
    (hsched : (abortGeminiSession registry sessionId).scheduledKill = some (k, pid))
    (hops : ∀ op ∈ ops, ∀ v, op ≠ RegOp.setEntry k v) :
    forceKillCallback (applyRegOps (abortGeminiSession registry sessionId).registry ops)
      (k, pid) = [] ∧
    (abortGeminiSession registry sessionId).sigtermTo = some pid := by
  have hreg : (abortGeminiSession registry sessionId).registry = mapDelete registry k ∧
      (abortGeminiSession registry sessionId).sigtermTo = some pid := by
    simp only [abortGeminiSession] at hsched ⊢
    split at hsched
    · next kv _ =>
      simp only [AbortResult.mk.injEq] at hsched ⊢
      have h1 : kv.1 = k := by simpa using congrArg Prod.fst (Option.some.inj hsched)
      have h2 : kv.2 = pid := by simpa using congrArg Prod.snd (Option.some.inj hsched)
      simp_all
    · simp at hsched
  refine ⟨?_, hreg.2⟩
  have hfalse : containsKey (applyRegOps (abortGeminiSession registry sessionId).registry ops)
      k = false := by
    apply containsKey_applyRegOps_false _ _ _ _ hops
    rw [hreg.1]
    exact containsKey_mapDelete_self registry k
  simp [forceKillCallback, hfalse]

theorem claim_c10_no_sigkill_without_rereg_witness :
    forceKillCallback
      (applyRegOps (abortGeminiSession [("s1", 1)] "s1").registry [RegOp.delEntry "s2"])
      ("s1", 1) = [] :=
  (claim_c10_no_sigkill_without_rereg [("s1", 1)] "s1" [RegOp.delEntry "s2"] "s1" 1 rfl
    (by intro op hop v; simp at hop; simp [hop])).1

/-! ## Claim C4 — the close handler -/

theorem jsOrStr_ne_empty (a : Option String) (b : String) (hb : b ≠ "") :
    jsOrStr a b ≠ "" := by
  cases a with
  | none => exact hb
  | some s =>
    simp only [jsOrStr]
    split
    · exact hb
    · assumption

theorem finalSessionId_ne_empty (cfg : TurnConfig) (st : TurnState)
    (hpk : cfg.processKey ≠ "") : finalSessionId cfg st ≠ "" :=
  jsOrStr_ne_empty _ _ (jsOrStr_ne_empty _ _ hpk)

theorem closeCodexTail_frame (cfg : TurnConfig) (st : TurnState) :
    (closeCodexTail cfg st).capturedSessionId = st.capturedSessionId ∧
    (closeCodexTail cfg st).store = st.store ∧
    (closeCodexTail cfg st).registry = st.registry ∧
    (closeCodexTail cfg st).codexStderrBuffer = st.codexStderrBuffer ∧
    (closeCodexTail cfg st).sessionCreatedSent = st.sessionCreatedSent ∧
    (closeCodexTail cfg st).hasReceivedOutput = st.hasReceivedOutput ∧
    (closeCodexTail cfg st).codexLineBuffer = st.codexLineBuffer ∧
    (closeCodexTail cfg st).pendingExternalSessionId = st.pendingExternalSessionId ∧
    (closeCodexTail cfg st).timeoutCleared = st.timeoutCleared := by
  unfold closeCodexTail
  split
  · split
    · split <;> exact ⟨rfl, rfl, rfl, rfl, rfl, rfl, rfl, rfl, rfl⟩
    · exact ⟨rfl, rfl, rfl, rfl, rfl, rfl, rfl, rfl, rfl⟩
  · exact ⟨rfl, rfl, rfl, rfl, rfl, rfl, rfl, rfl, rfl⟩

/-- Claim C4: on process close with exit code `c`, the response buffer
(when one was created) is force-flushed then destroyed before the terminal
`gemini-complete` event carrying `c`; the registry entry for the turn's
final session id is removed; the accumulated assistant text (including the
codex tail salvage) is persisted as an assistant message whenever it is
non-empty, regardless of `c`; exactly one terminal event carrying `c` is
sent; and the promise resolves exactly when `c = 0`, otherwise it rejects
with an error naming the provider label and `c`. -/
theorem claim_c4_close (cfg : TurnConfig) (st : TurnState) (code : Option Int)
    (hpk : cfg.processKey ≠ "") :
    (cfg.hasResponseHandler = true →
       ∃ l, onCloseActs cfg st code = Action.bufferForceFlush :: Action.bufferDestroy :: l ∧
         Action.wsSend (WsMsg.geminiComplete code
           (!optStrTruthy cfg.sessionId && cfg.command ≠ "")) ∈ l) ∧
    containsKey (onCloseState cfg st).registry
      (finalSessionId cfg (closeCodexTail cfg st)) = false ∧
    ((closeCodexTail cfg st).fullResponse ≠ "" →
       (onCloseState cfg st).store.messages =
         st.store.messages ++
           [(finalSessionId cfg (closeCodexTail cfg st), "assistant",
             (closeCodexTail cfg st).fullResponse)]) ∧
    (onCloseActs cfg st code).countP (isCompleteWithCode code) = 1 ∧
    (Action.resolveP ∈ onCloseActs cfg st code ↔ code = some 0) ∧
    (code ≠ some 0 →
       Action.rejectP (providerLabelFor cfg.cliProvider ++ " CLI exited with code " ++
         renderExitCode code) ∈ onCloseActs cfg st code) := by
  have hfsid : finalSessionId cfg (closeCodexTail cfg st) ≠ "" :=
    finalSessionId_ne_empty cfg _ hpk
  refine ⟨?_, ?_, ?_, ?_, ?_, ?_⟩
  · intro hrh
    obtain ⟨l, hl⟩ : ∃ l, onCloseActs cfg st code =
        Action.bufferForceFlush :: Action.bufferDestroy :: l :=
      ⟨_, by simp only [onCloseActs, hrh, if_true]; rfl⟩
    refine ⟨l, hl, ?_⟩
    have hmem : Action.wsSend (WsMsg.geminiComplete code
        (!optStrTruthy cfg.sessionId && cfg.command ≠ "")) ∈ onCloseActs cfg st code := by
      simp [onCloseActs, List.mem_append]
    rw [hl] at hmem
    simpa using hmem
  · show containsKey (onCloseState cfg st).registry _ = false
    unfold onCloseState
    dsimp only
    split
    · exact containsKey_mapDelete_self _ _
    · exact containsKey_mapDelete_self _ _
  · intro hfr
    unfold onCloseState
    rw [if_pos ⟨hfsid, hfr⟩]
    simp only [SessionStore.addMessage]
    rw [(closeCodexTail_frame cfg st).2.1]
    rfl
  · rcases htd : cfg.tempDir with _ | d <;>
    · simp only [onCloseActs, htd, List.countP_append]
      split_ifs <;>
        simp [List.countP_cons, List.countP_nil, isCompleteWithCode, List.countP_map,
          Function.comp, List.countP_false]
  · simp only [onCloseActs, List.mem_append]
    constructor
    · intro h
      rcases h with ((((h | h) | h) | h) | h) | h
      · split at h <;> simp_all
      · split at h <;> simp_all
      · split at h <;> simp_all
      · simp at h
      · split at h
        · rcases List.mem_append.mp h with h | h
          · rcases List.mem_map.mp h with ⟨p, _, hp⟩
            exact absurd hp.symm (by simp)
          · split at h <;> simp_all
        · simp at h
      · split at h
        · next hc => exact hc
        · simp at h
    · intro h
      rw [h]
      simp
  · intro hc
    simp only [onCloseActs, List.mem_append]
    right
    rw [if_neg hc]
    simp

theorem claim_c4_close_witness :
    (onCloseActs
        { sessionId := some "s", command := "hi", cliProvider := "gemini", cwd := "/w",
          processCwd := "/p", spawnNow := 3, outNow := 4, pid := 7,
          tempImagePaths := [], tempDir := none, parse := fun _ => none }
        (mkTurnState
          { sessionId := some "s", command := "hi", cliProvider := "gemini", cwd := "/w",
            processCwd := "/p", spawnNow := 3, outNow := 4, pid := 7,
            tempImagePaths := [], tempDir := none, parse := fun _ => none }
          ⟨[], [], []⟩)
        (some 2)).countP (isCompleteWithCode (some 2)) = 1 ∧
    Action.rejectP "Gemini CLI exited with code 2" ∈
      onCloseActs
        { sessionId := some "s", command := "hi", cliProvider := "gemini", cwd := "/w",
          processCwd := "/p", spawnNow := 3, outNow := 4, pid := 7,
          tempImagePaths := [], tempDir := none, parse := fun _ => none }
        (mkTurnState
          { sessionId := some "s", command := "hi", cliProvider := "gemini", cwd := "/w",
            processCwd := "/p", spawnNow := 3, outNow := 4, pid := 7,
            tempImagePaths := [], tempDir := none, parse := fun _ => none }
          ⟨[], [], []⟩)
        (some 2) := by
  constructor
  · exact (claim_c4_close _ _ (some 2) (by decide)).2.2.2.1
  · exact (claim_c4_close _ _ (some 2) (by decide)).2.2.2.2.2 (by decide)

/-! ## Claim C7 — staged artifact cleanup -/

theorem runTurn_append (cfg : TurnConfig) (st : TurnState) (l1 l2 : List TurnInput) :
    runTurn cfg st (l1 ++ l2) =
      ((runTurn cfg (runTurn cfg st l1).1 l2).1,
       (runTurn cfg st l1).2 ++ (runTurn cfg (runTurn cfg st l1).1 l2).2) := by
  induction l1 generalizing st with
  | nil => simp [runTurn]
  | cons i rest ih =>
    simp only [List.cons_append, runTurn, List.append_eq, ih, List.append_assoc]

theorem mem_applyFsOne (q : String) (f : List String) (a : Action) :
    q ∈ applyFsOne f a → q ∈ f := by
  cases a <;> simp only [applyFsOne] <;> intro h
  case fsUnlink => exact (List.mem_filter.mp h).1
  case fsRmRf => exact (List.mem_filter.mp h).1
  all_goals exact h

theorem mem_applyFsActions (q : String) (f : List String) (acts : List Action) :
    q ∈ applyFsActions f acts → q ∈ f := by
  induction acts generalizing f with
  | nil => simp [applyFsActions]
  | cons a rest ih =>
    intro h
    exact mem_applyFsOne q f a (ih (applyFsOne f a) h)

theorem applyFsActions_append (f : List String) (l1 l2 : List Action) :
    applyFsActions f (l1 ++ l2) = applyFsActions (applyFsActions f l1) l2 :=
  List.foldl_append _ _ _ _

theorem not_mem_applyFs_unlink (f : List String) (l1 l2 : List Action) (p : String) :
    p ∉ applyFsActions f (l1 ++ Action.fsUnlink p :: l2) := by
  intro h
  rw [applyFsActions_append] at h
  have h2 := mem_applyFsActions p _ _
    (show p ∈ applyFsActions (applyFsOne (applyFsActions f l1) (Action.fsUnlink p)) l2 from h)
  have := (List.mem_filter.mp h2).2
  simp at this

theorem not_mem_applyFs_rmrf (f : List String) (l1 l2 : List Action) (d : String) :
    d ∉ applyFsActions f (l1 ++ Action.fsRmRf d :: l2) := by
  intro h
  rw [applyFsActions_append] at h
  have h2 := mem_applyFsActions d _ _
    (show d ∈ applyFsActions (applyFsOne (applyFsActions f l1) (Action.fsRmRf d)) l2 from h)
  have := (List.mem_filter.mp h2).2
  simp at this

theorem mem_onCloseActs_unlink (cfg : TurnConfig) (st : TurnState) (code : Option Int)
    (d : String) (htd : cfg.tempDir = some d) (hps : cfg.tempImagePaths ≠ [])
    (p : String) (hp : p ∈ cfg.tempImagePaths) :
    Action.fsUnlink p ∈ onCloseActs cfg st code ∧
    Action.fsRmRf d ∈ onCloseActs cfg st code := by
  constructor <;>
  · simp only [onCloseActs, htd, List.mem_append]
    refine Or.inl (Or.inr ?_)
    rw [if_pos hps]
    simp [List.mem_append, List.mem_map]
    try exact Or.inl ⟨p, hp, rfl⟩
    try exact hp

/-- Claim C7: after the turn completes (the `close` handler has run —
in Node the `close` event follows `exit` and also follows a failed spawn's
`error` event, so the success path, non-zero exit, the timeout's SIGTERM
kill and the spawn-error path all funnel through it), every staged
temporary image file and the containing temp directory have been removed
from the filesystem, whatever exit code and whatever other events the turn
saw. -/
theorem claim_c7_artifact_cleanup (cfg : TurnConfig) (store0 : SessionStore)
    (inputs : List TurnInput) (code : Option Int) (fs0 : List String) (d : String)
    (hps : cfg.tempImagePaths ≠ []) (htd : cfg.tempDir = some d) :
    (∀ p ∈ cfg.tempImagePaths,
       p ∉ applyFsActions fs0
         (runTurn cfg (mkTurnState cfg store0) (inputs ++ [TurnInput.close code])).2) ∧
    d ∉ applyFsActions fs0
      (runTurn cfg (mkTurnState cfg store0) (inputs ++ [TurnInput.close code])).2 := by
  have hsplit : (runTurn cfg (mkTurnState cfg store0) (inputs ++ [TurnInput.close code])).2 =
      (runTurn cfg (mkTurnState cfg store0) inputs).2 ++
        onCloseActs cfg (runTurn cfg (mkTurnState cfg store0) inputs).1 code := by
    rw [runTurn_append]
    simp [runTurn, stepTurn, onClose]
  constructor
  · intro p hp
    have hm := (mem_onCloseActs_unlink cfg
      (runTurn cfg (mkTurnState cfg store0) inputs).1 code d htd hps p hp).1
    obtain ⟨s, t, hst⟩ := List.append_of_mem hm
    rw [hsplit, hst, ← List.append_assoc]
    exact not_mem_applyFs_unlink _ _ _ _
  · have hm := (mem_onCloseActs_unlink cfg
      (runTurn cfg (mkTurnState cfg store0) inputs).1 code d htd hps
      (cfg.tempImagePaths.headI) (by
        cases h : cfg.tempImagePaths with
        | nil => exact absurd h hps
        | cons a l => simp [h])).2
    obtain ⟨s, t, hst⟩ := List.append_of_mem hm
    rw [hsplit, hst, ← List.append_assoc]
    exact not_mem_applyFs_rmrf _ _ _ _

theorem claim_c7_artifact_cleanup_witness :
    ("/w/gemini_tmp_images/100/image_0.png" ∉
      applyFsActions ["/w/gemini_tmp_images/100/image_0.png", "/w/gemini_tmp_images/100", "/w/other.txt"]
        (runTurn
          { sessionId := none, command := "hi", cliProvider := "gemini", cwd := "/w",
            processCwd := "/p", spawnNow := 3, outNow := 4, pid := 7,
            tempImagePaths := ["/w/gemini_tmp_images/100/image_0.png"],
            tempDir := some "/w/gemini_tmp_images/100", parse := fun _ => none }
          (mkTurnState
            { sessionId := none, command := "hi", cliProvider := "gemini", cwd := "/w",
              processCwd := "/p", spawnNow := 3, outNow := 4, pid := 7,
              tempImagePaths := ["/w/gemini_tmp_images/100/image_0.png"],
              tempDir := some "/w/gemini_tmp_images/100", parse := fun _ => none }
            ⟨[], [], []⟩)
          ([TurnInput.procError "spawn gemini ENOENT"] ++ [TurnInput.close none])).2) ∧
    ("/w/gemini_tmp_images/100" ∉
      applyFsActions ["/w/gemini_tmp_images/100/image_0.png", "/w/gemini_tmp_images/100", "/w/other.txt"]
        (runTurn
          { sessionId := none, command := "hi", cliProvider := "gemini", cwd := "/w",
            processCwd := "/p", spawnNow := 3, outNow := 4, pid := 7,
            tempImagePaths := ["/w/gemini_tmp_images/100/image_0.png"],
            tempDir := some "/w/gemini_tmp_images/100", parse := fun _ => none }
          (mkTurnState
            { sessionId := none, command := "hi", cliProvider := "gemini", cwd := "/w",
              processCwd := "/p", spawnNow := 3, outNow := 4, pid := 7,
              tempImagePaths := ["/w/gemini_tmp_images/100/image_0.png"],
              tempDir := some "/w/gemini_tmp_images/100", parse := fun _ => none }
            ⟨[], [], []⟩)
          ([TurnInput.procError "spawn gemini ENOENT"] ++ [TurnInput.close none])).2) := by
  constructor
  · exact (claim_c7_artifact_cleanup _ _ _ none _ "/w/gemini_tmp_images/100"
      (by decide) rfl).1 _ (by decide)
  · exact (claim_c7_artifact_cleanup _ _ _ none _ "/w/gemini_tmp_images/100"
      (by decide) rfl).2

/-! ## Claim C5 — codex json-lines stream -/

/-- A `thread.started` event as emitted by the codex CLI. -/
def codexThreadStartedEvt : Json :=
  Json.obj [("type", Json.str "thread.started"), ("thread_id", Json.str "thr-1")]

/-- An `item.completed` event carrying an `agent_message` item. -/
def codexAgentMsgEvt (t : String) : Json :=
  Json.obj [("type", Json.str "item.completed"),
    ("item", Json.obj [("type", Json.str "agent_message"), ("text", Json.str t)])]

/-- A concrete `JSON.parse` oracle for the scenario: three well-formed
lines and everything else unparseable. -/
def codexTestParse (s : String) : Option Json :=
  if s = "T" then some codexThreadStartedEvt
  else if s = "M1" then some (codexAgentMsgEvt "hello")
  else if s = "M2" then some (codexAgentMsgEvt "world")
  else none

def codexTestCfg : TurnConfig :=
  { sessionId := some "sess-1", command := "hi", cliProvider := "codex", cwd := "/w",
    processCwd := "/p", spawnNow := 100, outNow := 200, pid := 7,
    tempImagePaths := [], tempDir := none, parse := codexTestParse }

/-- Claim C5: codex stdout is buffered and split on newlines with partial
lines held until completed (the write `"T\nM1"` processes only the line
`T`, holding `M1` in the buffer until the next write completes it); a
complete `thread.started` event followed by two completed `agent_message`
events yields exactly one capture of the external correlation id, stored
on the session, followed by two chunk emissions whose texts equal the two
message texts in order; and any complete line whose `JSON.parse` fails is
discarded silently, leaving the state unchanged and emitting nothing. -/
theorem claim_c5_codex_stream :
    (∀ (cfg : TurnConfig) (st : TurnState) (line : String),
       cfg.parse (jsTrim line) = none → handleCodexLine cfg st line = (st, [])) ∧
    (runTurn codexTestCfg (mkTurnState codexTestCfg ⟨[], [], []⟩)
        [TurnInput.stdout "T\x0aM1", TurnInput.stdout "\x0aM2\x0aJUNK\x0a"]).2 =
      [Action.setExternalAct "sess-1" (Json.str "thr-1"),
       Action.bufferProcessData "hello", Action.bufferProcessData "world"] ∧
    (runTurn codexTestCfg (mkTurnState codexTestCfg ⟨[], [], []⟩)
        [TurnInput.stdout "T\x0aM1", TurnInput.stdout "\x0aM2\x0aJUNK\x0a"]).1.store.externalIds =
      [("sess-1", Json.str "thr-1")] ∧
    (runTurn codexTestCfg (mkTurnState codexTestCfg ⟨[], [], []⟩)
        [TurnInput.stdout "T\x0aM1", TurnInput.stdout "\x0aM2\x0aJUNK\x0a"]).2.countP
      isSetExternalAct = 1 ∧
    (runTurn codexTestCfg (mkTurnState codexTestCfg ⟨[], [], []⟩)
        [TurnInput.stdout "T\x0aM1"]).1.codexLineBuffer = "M1" ∧
    (runTurn codexTestCfg (mkTurnState codexTestCfg ⟨[], [], []⟩)
        [TurnInput.stdout "T\x0aM1", TurnInput.stdout "\x0aM2\x0aJUNK\x0a"]).1.fullResponse =
      "hello\x0aworld" := by
  refine ⟨?_, rfl, rfl, rfl, rfl, rfl⟩
  intro cfg st line h
  simp only [handleCodexLine]
  split
  · rfl
  · rw [h]

theorem claim_c5_codex_stream_witness :
    handleCodexLine codexTestCfg (mkTurnState codexTestCfg ⟨[], [], []⟩) "JUNK" =
      (mkTurnState codexTestCfg ⟨[], [], []⟩, []) :=
  claim_c5_codex_stream.1 codexTestCfg (mkTurnState codexTestCfg ⟨[], [], []⟩) "JUNK" rfl

/-! ## Claim C2 — lazy session creation

Frame lemmas: the provider-specific stdout branch never touches the
session-identity fields, the registry, the stderr buffer, or the
sessions/messages of the store (it only appends response text, moves the
codex line buffer, and may record a pending external id). -/

def StdoutFrame (st st2 : TurnState) : Prop :=
  st2.capturedSessionId = st.capturedSessionId ∧
  st2.sessionCreatedSent = st.sessionCreatedSent ∧
  st2.registry = st.registry ∧
  st2.codexStderrBuffer = st.codexStderrBuffer ∧
  st2.hasReceivedOutput = st.hasReceivedOutput ∧
  st2.timeoutCleared = st.timeoutCleared ∧
  st2.store.sessions = st.store.sessions ∧
  st2.store.messages = st.store.messages

theorem stdoutFrame_refl (st : TurnState) : StdoutFrame st st :=
  ⟨rfl, rfl, rfl, rfl, rfl, rfl, rfl, rfl⟩

theorem stdoutFrame_trans {a b c : TurnState} (h1 : StdoutFrame a b) (h2 : StdoutFrame b c) :
    StdoutFrame a c := by
  obtain ⟨x1, x2, x3, x4, x5, x6, x7, x8⟩ := h1
  obtain ⟨y1, y2, y3, y4, y5, y6, y7, y8⟩ := h2
  exact ⟨y1.trans x1, y2.trans x2, y3.trans x3, y4.trans x4, y5.trans x5,
    y6.trans x6, y7.trans x7, y8.trans x8⟩

theorem handleCodexEvent_frame (cfg : TurnConfig) (st : TurnState) (e : Json) :
    StdoutFrame st (handleCodexEvent cfg st e).1 := by
  unfold handleCodexEvent StdoutFrame
  dsimp only
  repeat' split
  all_goals simp_all [SessionStore.setExternal]

theorem handleCodexLine_frame (cfg : TurnConfig) (st : TurnState) (line : String) :
    StdoutFrame st (handleCodexLine cfg st line).1 := by
  unfold handleCodexLine
  dsimp only
  split
  · exact stdoutFrame_refl st
  · split
    · exact stdoutFrame_refl st
    · exact handleCodexEvent_frame cfg st _

theorem processCodexLines_frame (cfg : TurnConfig) (lines : List String) :
    ∀ st : TurnState, StdoutFrame st (processCodexLines cfg st lines).1 := by
  induction lines with
  | nil => intro st; exact stdoutFrame_refl st
  | cons l rest ih =>
    intro st
    simp only [processCodexLines]
    exact stdoutFrame_trans (handleCodexLine_frame cfg st l) (ih _)

theorem stdoutBranch_frame (cfg : TurnConfig) (st : TurnState) (d : String) :
    StdoutFrame st (stdoutBranch cfg st d).1 := by
  unfold stdoutBranch
  split_ifs
  · unfold codexStdout
    dsimp only
    refine stdoutFrame_trans ?_ (processCodexLines_frame cfg _ _)
    exact ⟨rfl, rfl, rfl, rfl, rfl, rfl, rfl, rfl⟩
  · unfold geminiStdout
    dsimp only
    repeat' split
    all_goals first
      | exact stdoutFrame_refl st
      | exact ⟨rfl, rfl, rfl, rfl, rfl, rfl, rfl, rfl⟩
  · unfold ollamaStdout
    dsimp only
    repeat' split
    all_goals first
      | exact stdoutFrame_refl st
      | exact ⟨rfl, rfl, rfl, rfl, rfl, rfl, rfl, rfl⟩
  · unfold defaultStdout
    dsimp only
    repeat' split
    all_goals first
      | exact stdoutFrame_refl st
      | exact ⟨rfl, rfl, rfl, rfl, rfl, rfl, rfl, rfl⟩

/-! Emission lemmas: nothing in the stdout branch emits a
`session-created` event, and the non-stdout handlers never emit one
either. -/

theorem handleCodexEvent_countSC (cfg : TurnConfig) (st : TurnState) (e : Json) :
    (handleCodexEvent cfg st e).2.countP isSessionCreatedAct = 0 := by
  unfold handleCodexEvent
  dsimp only
  repeat' split
  all_goals simp [List.countP_append, List.countP_cons, isSessionCreatedAct]

theorem handleCodexLine_countSC (cfg : TurnConfig) (st : TurnState) (line : String) :
    (handleCodexLine cfg st line).2.countP isSessionCreatedAct = 0 := by
  unfold handleCodexLine
  dsimp only
  split
  · rfl
  · split
    · rfl
    · exact handleCodexEvent_countSC cfg st _

theorem processCodexLines_countSC (cfg : TurnConfig) (lines : List String) :
    ∀ st : TurnState, (processCodexLines cfg st lines).2.countP isSessionCreatedAct = 0 := by
  induction lines with
  | nil => intro st; rfl
  | cons l rest ih =>
    intro st
    simp only [processCodexLines, List.countP_append]
    rw [handleCodexLine_countSC, ih]

theorem stdoutBranch_countSC (cfg : TurnConfig) (st : TurnState) (d : String) :
    (stdoutBranch cfg st d).2.countP isSessionCreatedAct = 0 := by
  unfold stdoutBranch
  split_ifs
  · exact processCodexLines_countSC cfg _ _
  · unfold geminiStdout
    dsimp only
    repeat' split
    all_goals simp [List.countP_cons, isSessionCreatedAct]
  · unfold ollamaStdout
    dsimp only
    repeat' split
    all_goals rfl
  · unfold defaultStdout
    dsimp only
    repeat' split
    all_goals simp [List.countP_cons, isSessionCreatedAct]

theorem onCloseActs_countSC (cfg : TurnConfig) (st : TurnState) (code : Option Int) :
    (onCloseActs cfg st code).countP isSessionCreatedAct = 0 := by
  rcases htd : cfg.tempDir with _ | d <;>
  · simp only [onCloseActs, htd, List.countP_append]
    split_ifs <;>
      simp [List.countP_cons, List.countP_nil, isSessionCreatedAct, List.countP_map,
        Function.comp, List.countP_false]

/-! A turn with no caller session id that has seen no stdout yet is
"pristine": no session identity, nothing accumulated, the store untouched
and the handle still registered under the synthetic key (or already
unregistered by an exit path). -/

def Pristine (cfg : TurnConfig) (store0 : SessionStore) (st : TurnState) : Prop :=
  st.capturedSessionId = none ∧ st.sessionCreatedSent = false ∧
  st.fullResponse = "" ∧ st.codexLineBuffer = "" ∧
  st.pendingExternalSessionId = none ∧ st.store = store0 ∧
  (st.registry = [(cfg.processKey, cfg.pid)] ∨ st.registry = [])

theorem mapDelete_single (k : String) (v : Nat) : mapDelete [(k, v)] k = [] := by
  simp [mapDelete, List.filter]

theorem mapSet_nil (k : String) (v : Nat) : mapSet [] k v = [(k, v)] := by
  simp [mapSet]

theorem closeCodexTail_of_empty_buffer (cfg : TurnConfig) (st : TurnState)
    (hbuf : st.codexLineBuffer = "") : closeCodexTail cfg st = st := by
  unfold closeCodexTail
  rw [if_neg]
  rintro ⟨-, hne⟩
  rw [hbuf] at hne
  exact hne rfl

theorem finalSessionId_pristine (cfg : TurnConfig) (st : TurnState)
    (hs : cfg.sessionId = none) (hcap : st.capturedSessionId = none) :
    finalSessionId cfg st = cfg.processKey := by
  simp [finalSessionId, hs, hcap, jsOrStr]

theorem pristine_step (cfg : TurnConfig) (store0 : SessionStore)
    (hs : cfg.sessionId = none) (st : TurnState) (i : TurnInput)
    (hp : Pristine cfg store0 st) (hns : isStdoutIn i = false) :
    Pristine cfg store0 (stepTurn cfg st i).1 ∧
    (stepTurn cfg st i).2.countP isSessionCreatedAct = 0 := by
  obtain ⟨h1, h2, h3, h4, h5, h6, h7⟩ := hp
  cases i with
  | stdout d => simp [isStdoutIn] at hns
  | stderrIn d =>
    simp only [stepTurn, onStderrData]
    split_ifs <;> exact ⟨⟨h1, h2, h3, h4, h5, h6, h7⟩, rfl⟩
  | timerFire =>
    simp only [stepTurn, onTimeout]
    split_ifs <;> exact ⟨⟨h1, h2, h3, h4, h5, h6, h7⟩, rfl⟩
  | procError m =>
    simp only [stepTurn, onProcError]
    refine ⟨⟨h1, h2, h3, h4, h5, h6, ?_⟩, rfl⟩
    rw [finalSessionId_pristine cfg st hs h1]
    rcases h7 with h7 | h7 <;> rw [h7]
    · right; exact mapDelete_single _ _
    · right; rfl
  | close c =>
    simp only [stepTurn, onClose]
    refine ⟨?_, onCloseActs_countSC cfg st c⟩
    unfold onCloseState
    dsimp only
    rw [closeCodexTail_of_empty_buffer cfg st h4]
    rw [if_neg (by rintro ⟨-, hfr⟩; exact hfr h3)]
    refine ⟨h1, h2, h3, h4, h5, h6, ?_⟩
    have hfsid : finalSessionId cfg { st with timeoutCleared := true } = cfg.processKey :=
      finalSessionId_pristine cfg _ hs h1
    rw [hfsid]
    rcases h7 with h7 | h7 <;> rw [show ({ st with timeoutCleared := true } : TurnState).registry
        = st.registry from rfl, h7]
    · right; exact mapDelete_single _ _
    · right; rfl

theorem maybeCreateSession_flagTrue (cfg : TurnConfig) (st : TurnState)
    (h : st.sessionCreatedSent = true) : maybeCreateSession cfg st = (st, []) := by
  simp [maybeCreateSession, h]

theorem onCloseState_sessionCreatedSent (cfg : TurnConfig) (st : TurnState) :
    (onCloseState cfg st).sessionCreatedSent = st.sessionCreatedSent := by
  unfold onCloseState
  dsimp only
  split <;> exact (closeCodexTail_frame cfg st).2.2.2.2.1

theorem flagTrue_step (cfg : TurnConfig) (st : TurnState) (i : TurnInput)
    (h : st.sessionCreatedSent = true) :
    (stepTurn cfg st i).1.sessionCreatedSent = true ∧
    (stepTurn cfg st i).2.countP isSessionCreatedAct = 0 := by
  cases i with
  | stdout d =>
    simp only [stepTurn, onStdoutData]
    have hB := (stdoutBranch_frame cfg { st with
      outputBuffer := st.outputBuffer ++ d, hasReceivedOutput := true,
      timeoutCleared := true } d).2.1
    have hflag : (stdoutBranch cfg { st with
        outputBuffer := st.outputBuffer ++ d, hasReceivedOutput := true,
        timeoutCleared := true } d).1.sessionCreatedSent = true := by
      rw [hB]; exact h
    rw [maybeCreateSession_flagTrue cfg _ hflag]
    refine ⟨hflag, ?_⟩
    simp only [List.countP_append]
    rw [stdoutBranch_countSC]
    rfl
  | stderrIn d =>
    simp only [stepTurn, onStderrData]
    split_ifs <;> exact ⟨h, rfl⟩
  | timerFire =>
    simp only [stepTurn, onTimeout]
    split_ifs <;> exact ⟨h, rfl⟩
  | close c =>
    simp only [stepTurn, onClose]
    rw [onCloseState_sessionCreatedSent]
    exact ⟨h, onCloseActs_countSC cfg st c⟩
  | procError m =>
    simp only [stepTurn, onProcError]
    exact ⟨h, rfl⟩

theorem flagTrue_run (cfg : TurnConfig) (inputs : List TurnInput) :
    ∀ st : TurnState, st.sessionCreatedSent = true →
    (runTurn cfg st inputs).1.sessionCreatedSent = true ∧
    (runTurn cfg st inputs).2.countP isSessionCreatedAct = 0 := by
  induction inputs with
  | nil => intro st h; exact ⟨h, rfl⟩
  | cons i rest ih =>
    intro st h
    have h1 := flagTrue_step cfg st i h
    have h2 := ih (stepTurn cfg st i).1 h1.1
    simp only [runTurn, List.countP_append]
    exact ⟨h2.1, by rw [h1.2, h2.2]⟩

theorem pristine_run (cfg : TurnConfig) (store0 : SessionStore)
    (hs : cfg.sessionId = none) (inputs : List TurnInput) :
    ∀ st : TurnState, Pristine cfg store0 st →
    (∀ i ∈ inputs, isStdoutIn i = false) →
    Pristine cfg store0 (runTurn cfg st inputs).1 ∧
    (runTurn cfg st inputs).2.countP isSessionCreatedAct = 0 := by
  induction inputs with
  | nil => intro st h _; exact ⟨h, rfl⟩
  | cons i rest ih =>
    intro st h hns
    have h1 := pristine_step cfg store0 hs st i h (hns i (by simp))
    have h2 := ih (stepTurn cfg st i).1 h1.1 (fun j hj => hns j (by simp [hj]))
    simp only [runTurn, List.countP_append]
    exact ⟨h2.1, by rw [h1.2, h2.2]⟩

theorem onStdoutData_creates (cfg : TurnConfig) (store0 : SessionStore)
    (hs : cfg.sessionId = none)
    (hkey : cfg.processKey ≠ sessionTagFor cfg.cliProvider ++ "_" ++ Nat.repr cfg.outNow)
    (st : TurnState) (d : String) (hp : Pristine cfg store0 st) :
    (onStdoutData cfg st d).1.capturedSessionId =
      some (sessionTagFor cfg.cliProvider ++ "_" ++ Nat.repr cfg.outNow) ∧
    (onStdoutData cfg st d).1.sessionCreatedSent = true ∧
    (onStdoutData cfg st d).1.store.sessions =
      store0.sessions ++ [(sessionTagFor cfg.cliProvider ++ "_" ++ Nat.repr cfg.outNow,
        (if cfg.cwd ≠ "" then cfg.cwd else cfg.processCwd), cfg.cliProvider)] ∧
    (onStdoutData cfg st d).1.store.messages =
      store0.messages ++ (if cfg.command ≠ "" then
        [(sessionTagFor cfg.cliProvider ++ "_" ++ Nat.repr cfg.outNow, "user", cfg.command)]
        else []) ∧
    (onStdoutData cfg st d).1.registry =
      [(sessionTagFor cfg.cliProvider ++ "_" ++ Nat.repr cfg.outNow, cfg.pid)] ∧
    (onStdoutData cfg st d).2.countP isSessionCreatedAct = 1 ∧
    Action.wsSend (WsMsg.sessionCreated
      (sessionTagFor cfg.cliProvider ++ "_" ++ Nat.repr cfg.outNow)) ∈
      (onStdoutData cfg st d).2 := by
  obtain ⟨h1, h2, h3, h4, h5, h6, h7⟩ := hp
  simp only [onStdoutData]
  obtain ⟨f1, f2, f3, f4, f5, f6, f7, f8⟩ := stdoutBranch_frame cfg { st with
    outputBuffer := st.outputBuffer ++ d, hasReceivedOutput := true,
    timeoutCleared := true } d
  have hcap : (stdoutBranch cfg { st with
      outputBuffer := st.outputBuffer ++ d, hasReceivedOutput := true,
      timeoutCleared := true } d).1.capturedSessionId = none := by rw [f1]; exact h1
  have hflag : (stdoutBranch cfg { st with
      outputBuffer := st.outputBuffer ++ d, hasReceivedOutput := true,
      timeoutCleared := true } d).1.sessionCreatedSent = false := by rw [f2]; exact h2
  have hreg : (stdoutBranch cfg { st with
      outputBuffer := st.outputBuffer ++ d, hasReceivedOutput := true,
      timeoutCleared := true } d).1.registry = st.registry := f3
  have hsess : (stdoutBranch cfg { st with
      outputBuffer := st.outputBuffer ++ d, hasReceivedOutput := true,
      timeoutCleared := true } d).1.store.sessions = store0.sessions := by
    rw [f7]; exact congrArg SessionStore.sessions h6
  have hmsg : (stdoutBranch cfg { st with
      outputBuffer := st.outputBuffer ++ d, hasReceivedOutput := true,
      timeoutCleared := true } d).1.store.messages = store0.messages := by
    rw [f8]; exact congrArg SessionStore.messages h6
  have hcount := stdoutBranch_countSC cfg { st with
    outputBuffer := st.outputBuffer ++ d, hasReceivedOutput := true,
    timeoutCleared := true } d
  simp only [maybeCreateSession, hs, hcap, hflag, optStrTruthy, Bool.not_false,
    Bool.and_self, if_true, Bool.and_true, Bool.true_and]
  repeat' split
  all_goals try (exact absurd hkey (by assumption))
  all_goals exact ⟨rfl, rfl,
    by
      simp only [SessionStore.createSession, SessionStore.addMessage, SessionStore.setExternal]
      rw [hsess],
    by
      simp only [SessionStore.createSession, SessionStore.addMessage, SessionStore.setExternal,
        List.append_nil]
      rw [hmsg],
    by
      rcases h7 with h7 | h7 <;> rw [hreg, h7] <;>
        simp [mapDelete, mapSet, containsKey],
    by
      simp only [List.countP_append]
      rw [hcount]
      simp [List.countP_cons, isSessionCreatedAct],
    by simp [List.mem_append]⟩

/-- **C2.** A turn spawned with no `sessionId`: for every prefix of inputs
containing no stdout data (stderr, timer, close, spawn error — i.e. any
failed-before-output turn), the session store is untouched and no
`session-created` event is emitted; at the first stdout data event a
session id is synthesized from the provider tag and `Date.now()`, the
session record is created, the deferred user message is persisted (when
the command is non-empty), the registry entry is rekeyed from the
synthetic process key to the new session id, and the `session-created`
event is emitted; over the whole turn `pre ++ stdout :: post` that event
is emitted exactly once. -/
theorem claim_c2_lazy_session (cfg : TurnConfig) (store0 : SessionStore)
    (hs : cfg.sessionId = none)
    (hkey : cfg.processKey ≠ sessionTagFor cfg.cliProvider ++ "_" ++ Nat.repr cfg.outNow)
    (pre post : List TurnInput) (d : String)
    (hpre : ∀ i ∈ pre, isStdoutIn i = false) :
    ((runTurn cfg (mkTurnState cfg store0) pre).1.store = store0 ∧
     (runTurn cfg (mkTurnState cfg store0) pre).2.countP isSessionCreatedAct = 0) ∧
    ((onStdoutData cfg (runTurn cfg (mkTurnState cfg store0) pre).1 d).1.capturedSessionId =
       some (sessionTagFor cfg.cliProvider ++ "_" ++ Nat.repr cfg.outNow) ∧
     (onStdoutData cfg (runTurn cfg (mkTurnState cfg store0) pre).1 d).1.store.sessions =
       store0.sessions ++ [(sessionTagFor cfg.cliProvider ++ "_" ++ Nat.repr cfg.outNow,
         (if cfg.cwd ≠ "" then cfg.cwd else cfg.processCwd), cfg.cliProvider)] ∧
     (onStdoutData cfg (runTurn cfg (mkTurnState cfg store0) pre).1 d).1.store.messages =
       store0.messages ++ (if cfg.command ≠ "" then
         [(sessionTagFor cfg.cliProvider ++ "_" ++ Nat.repr cfg.outNow, "user", cfg.command)]
         else []) ∧
     (onStdoutData cfg (runTurn cfg (mkTurnState cfg store0) pre).1 d).1.registry =
       [(sessionTagFor cfg.cliProvider ++ "_" ++ Nat.repr cfg.outNow, cfg.pid)] ∧
     Action.wsSend (WsMsg.sessionCreated
       (sessionTagFor cfg.cliProvider ++ "_" ++ Nat.repr cfg.outNow)) ∈
       (onStdoutData cfg (runTurn cfg (mkTurnState cfg store0) pre).1 d).2) ∧
    (runTurn cfg (mkTurnState cfg store0)
       (pre ++ TurnInput.stdout d :: post)).2.countP isSessionCreatedAct = 1 := by
  have hp0 : Pristine cfg store0 (mkTurnState cfg store0) := by
    refine ⟨hs, rfl, rfl, rfl, rfl, rfl, Or.inl ?_⟩
    simp [mkTurnState, mapSet, containsKey]
  have ha := pristine_run cfg store0 hs pre (mkTurnState cfg store0) hp0 hpre
  obtain ⟨hb1, hb2, hb3, hb4, hb5, hb6, hb7⟩ :=
    onStdoutData_creates cfg store0 hs hkey (runTurn cfg (mkTurnState cfg store0) pre).1 d ha.1
  have hpost := flagTrue_run cfg post
    (onStdoutData cfg (runTurn cfg (mkTurnState cfg store0) pre).1 d).1 hb2
  refine ⟨⟨ha.1.2.2.2.2.2.1, ha.2⟩, ⟨hb1, hb3, hb4, hb5, hb7⟩, ?_⟩
  rw [runTurn_append]
  simp only [List.countP_append]
  rw [ha.2]
  simp only [runTurn, stepTurn]
  simp only [List.countP_append]
  rw [hb6, hpost.2]

def c2TestCfg : TurnConfig :=
  { sessionId := none, command := "hi", cliProvider := "gemini", cwd := "/w",
    processCwd := "/p", spawnNow := 5, outNow := 9, pid := 3,
    tempImagePaths := [], tempDir := none, parse := fun _ => none }

theorem claim_c2_lazy_session_witness :
    (runTurn c2TestCfg (mkTurnState c2TestCfg ⟨[], [], []⟩)
       [TurnInput.stderrIn "warming up"]).1.store = (⟨[], [], []⟩ : SessionStore) ∧
    (onStdoutData c2TestCfg
       (runTurn c2TestCfg (mkTurnState c2TestCfg ⟨[], [], []⟩)
         [TurnInput.stderrIn "warming up"]).1 "ok").1.registry =
      [(sessionTagFor c2TestCfg.cliProvider ++ "_" ++ Nat.repr c2TestCfg.outNow,
        c2TestCfg.pid)] ∧
    (runTurn c2TestCfg (mkTurnState c2TestCfg ⟨[], [], []⟩)
       ([TurnInput.stderrIn "warming up"] ++
        TurnInput.stdout "ok" :: [TurnInput.close (some 0)])).2.countP
      isSessionCreatedAct = 1 := by
  have h := claim_c2_lazy_session c2TestCfg ⟨[], [], []⟩ rfl (by decide)
    [TurnInput.stderrIn "warming up"] [TurnInput.close (some 0)] "ok"
    (by intro i hi; simp only [List.mem_singleton] at hi; subst hi; rfl)
  exact ⟨h.1.1, h.2.1.2.2.2.1, h.2.2⟩

/-! ## Claim C1 — the no-output timeout -/

def isSigtermAct : Action → Bool
  | .killSigterm _ => true
  | _ => false

theorem handleCodexEvent_countKill (cfg : TurnConfig) (st : TurnState) (e : Json) :
    (handleCodexEvent cfg st e).2.countP isSigtermAct = 0 := by
  unfold handleCodexEvent
  dsimp only
  repeat' split
  all_goals simp [List.countP_append, List.countP_cons, isSigtermAct]

theorem handleCodexLine_countKill (cfg : TurnConfig) (st : TurnState) (line : String) :
    (handleCodexLine cfg st line).2.countP isSigtermAct = 0 := by
  unfold handleCodexLine
  dsimp only
  split
  · rfl
  · split
    · rfl
    · exact handleCodexEvent_countKill cfg st _

theorem processCodexLines_countKill (cfg : TurnConfig) (lines : List String) :
    ∀ st : TurnState, (processCodexLines cfg st lines).2.countP isSigtermAct = 0 := by
  induction lines with
  | nil => intro st; rfl
  | cons l rest ih =>
    intro st
    simp only [processCodexLines, List.countP_append]
    rw [handleCodexLine_countKill, ih]

theorem stdoutBranch_countKill (cfg : TurnConfig) (st : TurnState) (d : String) :
    (stdoutBranch cfg st d).2.countP isSigtermAct = 0 := by
  unfold stdoutBranch
  split_ifs
  · exact processCodexLines_countKill cfg _ _
  · unfold geminiStdout
    dsimp only
    repeat' split
    all_goals simp [List.countP_cons, isSigtermAct]
  · unfold ollamaStdout
    dsimp only
    repeat' split
    all_goals rfl
  · unfold defaultStdout
    dsimp only
    repeat' split
    all_goals simp [List.countP_cons, isSigtermAct]

theorem maybeCreateSession_countKill (cfg : TurnConfig) (st : TurnState) :
    (maybeCreateSession cfg st).2.countP isSigtermAct = 0 := by
  unfold maybeCreateSession
  dsimp only
  repeat' split
  all_goals simp [List.countP_append, List.countP_cons, isSigtermAct]

theorem onCloseActs_countKill (cfg : TurnConfig) (st : TurnState) (code : Option Int) :
    (onCloseActs cfg st code).countP isSigtermAct = 0 := by
  rcases htd : cfg.tempDir with _ | d <;>
  · simp only [onCloseActs, htd, List.countP_append]
    split_ifs <;>
      simp [List.countP_cons, List.countP_nil, isSigtermAct, List.countP_map,
        Function.comp, List.countP_false]

theorem stepTurn_countKill (cfg : TurnConfig) (st : TurnState) (i : TurnInput)
    (h : isTimerFire i = false) :
    (stepTurn cfg st i).2.countP isSigtermAct = 0 := by
  cases i with
  | stdout d =>
    simp only [stepTurn, onStdoutData, List.countP_append]
    rw [stdoutBranch_countKill, maybeCreateSession_countKill]
  | stderrIn d =>
    simp only [stepTurn, onStderrData]
    split_ifs <;> simp [List.countP_cons, isSigtermAct]
  | timerFire => exact absurd h (by simp [isTimerFire])
  | close c =>
    simp only [stepTurn, onClose]
    exact onCloseActs_countKill cfg st c
  | procError m =>
    simp only [stepTurn, onProcError]
    rfl

theorem run_countKill_zero (cfg : TurnConfig) (l : List TurnInput) :
    ∀ st : TurnState, (∀ i ∈ l, isTimerFire i = false) →
    (runTurn cfg st l).2.countP isSigtermAct = 0 := by
  induction l with
  | nil => intro st _; rfl
  | cons i rest ih =>
    intro st h
    simp only [runTurn, List.countP_append]
    rw [stepTurn_countKill cfg st i (h i (by simp)), ih _ (fun j hj => h j (by simp [hj]))]

theorem onCloseState_hro (cfg : TurnConfig) (st : TurnState) :
    (onCloseState cfg st).hasReceivedOutput = st.hasReceivedOutput := by
  unfold onCloseState
  dsimp only
  split
  · exact (closeCodexTail_frame cfg st).2.2.2.2.2.1
  · exact (closeCodexTail_frame cfg st).2.2.2.2.2.1

theorem stepTurn_hro (cfg : TurnConfig) (st : TurnState) (i : TurnInput)
    (h : isStdoutIn i = false) :
    (stepTurn cfg st i).1.hasReceivedOutput = st.hasReceivedOutput := by
  cases i with
  | stdout d => exact absurd h (by simp [isStdoutIn])
  | stderrIn d =>
    simp only [stepTurn, onStderrData]
    split_ifs <;> rfl
  | timerFire =>
    simp only [stepTurn, onTimeout]
    split_ifs <;> rfl
  | close c =>
    simp only [stepTurn, onClose]
    exact onCloseState_hro cfg st
  | procError m => rfl

theorem run_hro (cfg : TurnConfig) (l : List TurnInput) :
    ∀ st : TurnState, (∀ i ∈ l, isStdoutIn i = false) →
    (runTurn cfg st l).1.hasReceivedOutput = st.hasReceivedOutput := by
  induction l with
  | nil => intro st _; rfl
  | cons i rest ih =>
    intro st h
    simp only [runTurn]
    rw [ih _ (fun j hj => h j (by simp [hj])), stepTurn_hro cfg st i (h i (by simp))]

theorem tvAux_seenFire_no_fire (l : List TurnInput) :
    ∀ sc : Bool, timerValidAux sc true l = true → ∀ i ∈ l, isTimerFire i = false := by
  induction l with
  | nil => intro sc _ i hi; cases hi
  | cons j rest ih =>
    intro sc h i hi
    simp only [timerValidAux, Bool.or_true, if_true] at h
    by_cases hj : isTimerFire j = true
    · rw [if_pos hj] at h
      exact absurd h (by simp)
    · rw [if_neg hj] at h
      rcases List.mem_cons.mp hi with rfl | hi
      · simpa using hj
      · exact ih _ h i hi

theorem tvAux_fire_split (l1 : List TurnInput) :
    ∀ (sc sf : Bool) (l2 : List TurnInput),
    timerValidAux sc sf (l1 ++ TurnInput.timerFire :: l2) = true →
    sc = false ∧ sf = false ∧
    (∀ i ∈ l1, clearsTimeout i = false ∧ isTimerFire i = false) ∧
    (∀ i ∈ l2, isTimerFire i = false) := by
  induction l1 with
  | nil =>
    intro sc sf l2 h
    simp only [List.nil_append, timerValidAux, isTimerFire, eq_self_iff_true, if_true] at h
    by_cases hsc : (sc || sf) = true
    · rw [if_pos hsc] at h
      exact absurd h (by simp)
    · rw [if_neg hsc] at h
      simp only [Bool.or_eq_true, not_or, Bool.not_eq_true] at hsc
      exact ⟨hsc.1, hsc.2, fun i hi => absurd hi (by simp),
        tvAux_seenFire_no_fire l2 sc h⟩
  | cons j rest ih =>
    intro sc sf l2 h
    simp only [List.cons_append, timerValidAux] at h
    by_cases hj : isTimerFire j = true
    · rw [if_pos hj] at h
      by_cases hsc : (sc || sf) = true
      · rw [if_pos hsc] at h
        exact absurd h (by simp)
      · rw [if_neg hsc] at h
        have hmem := tvAux_seenFire_no_fire (rest ++ TurnInput.timerFire :: l2) sc h
          TurnInput.timerFire (by simp)
        exact absurd hmem (by simp [isTimerFire])
    · rw [if_neg hj] at h
      obtain ⟨h1, h2, h3, h4⟩ := ih (sc || clearsTimeout j) sf l2 h
      simp only [Bool.or_eq_false_iff] at h1
      refine ⟨h1.1, h2, ?_, h4⟩
      intro i hi
      rcases List.mem_cons.mp hi with rfl | hi
      · exact ⟨h1.2, by simpa using hj⟩
      · exact h3 i hi

theorem not_clears_not_stdout (i : TurnInput) (h : clearsTimeout i = false) :
    isStdoutIn i = false := by
  cases i <;> simp_all [clearsTimeout, isStdoutIn]

def c1TestCfg : TurnConfig :=
  { sessionId := some "s9", command := "hi", cliProvider := "gemini", cwd := "/w",
    processCwd := "/p", spawnNow := 50, outNow := 60, pid := 11,
    tempImagePaths := [], tempDir := none, parse := fun _ => none }

/-- Claim C1 (as stated, refuted): the claim says the timeout "fires only
if no output of any kind has been observed". But only stdout sets
`hasReceivedOutput` and clears the timer; stderr output does neither. In
the exhibited execution — consistent with Node's one-shot timer
semantics — stderr output "boom" is observed and surfaced, yet the timer
still fires, surfaces the timeout error and SIGTERMs the process. -/
theorem claim_c1_counterexample :
    timerValid [TurnInput.stderrIn "boom", TurnInput.timerFire] ∧
    (runTurn c1TestCfg (mkTurnState c1TestCfg ⟨[], [], []⟩)
       [TurnInput.stderrIn "boom", TurnInput.timerFire]).2 =
      [Action.wsSend (WsMsg.geminiError "boom"),
       Action.wsSend (WsMsg.geminiError (timeoutText c1TestCfg)),
       Action.killSigterm 11] :=
  ⟨rfl, rfl⟩

/-- **C1** (amended): the timeout window is 30000 ms for gemini/claude
(and any other non-codex/ollama/bmad tag) and 120000 ms for
codex/ollama/bmad; the timer callback re-checks `hasReceivedOutput` and
does nothing once stdout has been seen; under Node's one-shot timer
semantics, stdout data arriving before the window elapses cancels the
timer permanently (no later fire is possible in any valid schedule); and
in every valid schedule in which the timer fires, no stdout preceded the
fire, the fire surfaces exactly the timeout error followed by SIGTERM,
and the whole turn sends SIGTERM exactly once. Stderr output, however,
neither cancels the timer nor suppresses the timeout error. -/
theorem claim_c1_no_output_timeout (cfg : TurnConfig) (store0 : SessionStore) :
    (timeoutMsFor "gemini" = 30000 ∧ timeoutMsFor "claude" = 30000 ∧
     timeoutMsFor "codex" = 120000 ∧ timeoutMsFor "ollama" = 120000 ∧
     timeoutMsFor "bmad" = 120000) ∧
    (∀ st : TurnState, st.hasReceivedOutput = true → onTimeout cfg st = (st, [])) ∧
    (∀ (a b c : List TurnInput) (d : String),
       ¬ timerValid (a ++ TurnInput.stdout d :: (b ++ TurnInput.timerFire :: c))) ∧
    (∀ l1 l2 : List TurnInput,
       timerValid (l1 ++ TurnInput.timerFire :: l2) →
       (∀ i ∈ l1, isStdoutIn i = false) ∧
       stepTurn cfg (runTurn cfg (mkTurnState cfg store0) l1).1 TurnInput.timerFire =
         ((runTurn cfg (mkTurnState cfg store0) l1).1,
          [Action.wsSend (WsMsg.geminiError (timeoutText cfg)),
           Action.killSigterm cfg.pid]) ∧
       (runTurn cfg (mkTurnState cfg store0)
          (l1 ++ TurnInput.timerFire :: l2)).2.countP isSigtermAct = 1) := by
  refine ⟨⟨rfl, rfl, rfl, rfl, rfl⟩, ?_, ?_, ?_⟩
  · intro st h
    simp [onTimeout, h]
  · intro a b c d hv
    have hv2 : timerValidAux false false
        ((a ++ TurnInput.stdout d :: b) ++ TurnInput.timerFire :: c) = true := by
      have : (a ++ TurnInput.stdout d :: b) ++ TurnInput.timerFire :: c =
          a ++ TurnInput.stdout d :: (b ++ TurnInput.timerFire :: c) := by
        simp
      rw [this]
      exact hv
    obtain ⟨-, -, h3, -⟩ := tvAux_fire_split (a ++ TurnInput.stdout d :: b) false false c hv2
    have := (h3 (TurnInput.stdout d) (by simp)).1
    simp [clearsTimeout] at this
  · intro l1 l2 hv
    obtain ⟨-, -, h3, h4⟩ := tvAux_fire_split l1 false false l2 hv
    have hnostd : ∀ i ∈ l1, isStdoutIn i = false :=
      fun i hi => not_clears_not_stdout i (h3 i hi).1
    have hnt1 : ∀ i ∈ l1, isTimerFire i = false := fun i hi => (h3 i hi).2
    have hro : (runTurn cfg (mkTurnState cfg store0) l1).1.hasReceivedOutput = false := by
      rw [run_hro cfg l1 (mkTurnState cfg store0) hnostd]
      rfl
    have hstep : stepTurn cfg (runTurn cfg (mkTurnState cfg store0) l1).1
        TurnInput.timerFire =
        ((runTurn cfg (mkTurnState cfg store0) l1).1,
         [Action.wsSend (WsMsg.geminiError (timeoutText cfg)),
          Action.killSigterm cfg.pid]) := by
      simp [stepTurn, onTimeout, hro]
    refine ⟨hnostd, hstep, ?_⟩
    rw [runTurn_append]
    simp only [List.countP_append]
    rw [run_countKill_zero cfg l1 (mkTurnState cfg store0) hnt1]
    simp only [runTurn]
    rw [hstep]
    simp only [List.countP_append]
    rw [run_countKill_zero cfg l2 _ h4]
    simp [List.countP_cons, isSigtermAct]

theorem claim_c1_no_output_timeout_witness :
    timeoutMsFor "gemini" = 30000 ∧
    timerValid ([TurnInput.stderrIn "warm"] ++ TurnInput.timerFire :: []) ∧
    (runTurn c1TestCfg (mkTurnState c1TestCfg ⟨[], [], []⟩)
       ([TurnInput.stderrIn "warm"] ++ TurnInput.timerFire :: [])).2.countP
      isSigtermAct = 1 := by
  have h := claim_c1_no_output_timeout c1TestCfg ⟨[], [], []⟩
  exact ⟨h.1.1, rfl, (h.2.2.2 [TurnInput.stderrIn "warm"] [] rfl).2.2⟩

end GeminiCliUi
